import Mathlib

/-!
# blockchain-client: an HTTP gateway in front of a JSON-RPC node

A shallow embedding of `src/main.go` (the RPC client and the three gin routes)
and of the mock node of `src/main_test.go`, with the parts of `encoding/json`,
`strconv`, `net/http` and gin that the program's behaviour goes through.

Layout of the model:

* JSON documents are parsed trees (`JSON`); the bytes of a body are either the
  text of one document or not JSON at all (`Body`). Object members keep the order
  and the repetitions of the text. Strings, in JSON and in Go, are sequences of
  Unicode scalar values: a Go string that is not valid UTF-8 (a path segment `%ff`),
  which `json.Marshal` writes with U+FFFD in place of each bad byte, is not modelled.
* Numbers are literals (`NumLit`); a number stored in an `interface{}` goes through
  binary64 (`parseFloat`, `formatFloat`), computed exactly on naturals.
* What `interface{}` holds after `json.Unmarshal` is a `GoValue`; a Go map is listed
  by ascending key, which is also the order `json.Marshal` writes it in.
* The node the client talks to is a transition function on an arbitrary state
  (`Upstream`); every call returns its result, the node's next state and the POSTs
  it made (`Sent`).
-/

/-! ## JSON documents -/

/-- A JSON number literal. `int` is a literal written without fraction and exponent
(`-32601`, `2`, `-0`); `real` is one written with a fraction or an exponent, of value
`mant * 10 ^ exp10`, its digit layout apart (`1.5` is `real false 15 (-1)`, `1e400`
is `real false 1 400`). -/
inductive NumLit where
  | int (neg : Bool) (mag : Nat)
  | real (neg : Bool) (mant : Nat) (exp10 : Int)
deriving DecidableEq, Repr

/-- A parsed JSON document: a text that the scanner of `encoding/json` accepts, which
refuses one nested deeper than 10000. -/
inductive JSON where
  | null
  | bool (b : Bool)
  | num (n : NumLit)
  | str (s : String)
  | arr (items : List JSON)
  | obj (members : List (String × JSON))
deriving Repr

/-- The first member of an object with the given name. -/
def JSON.member (name : String) : JSON → Option JSON
  | .obj ms => ms.lookup name
  | _ => none

/-- Sign of a literal. -/
def NumLit.isNeg : NumLit → Bool
  | .int n _ => n
  | .real n _ _ => n

/-- Magnitude of a literal as a fraction `(numerator, denominator)`. -/
def NumLit.frac : NumLit → Nat × Nat
  | .int _ m => (m, 1)
  | .real _ m e => if 0 ≤ e then (m * 10 ^ e.toNat, 1) else (m, 10 ^ (-e).toNat)

/-- Two literals denote the same number. -/
def NumLit.sameValue (a b : NumLit) : Bool :=
  a.frac.1 * b.frac.2 == b.frac.1 * a.frac.2 && (a.frac.1 == 0 || a.isNeg == b.isNeg)

/-- The literal `strconv.Itoa` writes for an integer. -/
def NumLit.ofInt (i : Int) : NumLit := .int (decide (i < 0)) i.natAbs

/-- Result of `strconv.ParseInt(lit, 10, 64)`: the integer a plain literal within int64
denotes, `none` for a literal with a fraction or an exponent and for one out of range. -/
def parseInt64 : NumLit → Option Int
  | .int neg mag =>
    let i : Int := if neg then -(mag : Int) else (mag : Int)
    if -(2 : Int) ^ 63 ≤ i ∧ i < (2 : Int) ^ 63 then some i else none
  | .real _ _ _ => none

/-! ## binary64 -/

/-- A finite binary64 value `mant * 2 ^ exp`, with `mant < 2 ^ 53` and
`-1074 ≤ exp ≤ 971`. -/
structure F64 where
  neg : Bool
  mant : Nat
  exp : Int
deriving DecidableEq, Repr

/-- Number of binary digits of `n`; `fuel` bounds the recursion. -/
def bitLenAux : Nat → Nat → Nat
  | 0, _ => 0
  | fuel + 1, n => if n = 0 then 0 else bitLenAux fuel (n / 2) + 1

/-- Number of binary digits of `n`. -/
def bitLen (n : Nat) : Nat := bitLenAux n n

/-- The quotient `a / b` rounded to the nearest integer, ties to even. -/
def roundHalfEven (a b : Nat) : Nat :=
  let q := a / b
  let r := a % b
  if 2 * r < b then q
  else if b < 2 * r then q + 1
  else if q % 2 = 0 then q else q + 1

/-- The fraction `a / (b * 2 ^ e)` on naturals. -/
def scaleBy (a b : Nat) (e : Int) : Nat × Nat :=
  if 0 ≤ e then (a, b * 2 ^ e.toNat) else (a * 2 ^ (-e).toNat, b)

/-- The binary64 nearest to the fraction `a / b` (round to nearest, ties to even), as
significand and binary exponent; `none` when it rounds beyond the largest finite
value. -/
def roundFrac (a b : Nat) : Option (Nat × Int) :=
  if a = 0 then some (0, -1074) else
  let e₀ : Int := (bitLen a : Int) - (bitLen b : Int) - 53
  let s₀ := scaleBy a b e₀
  let e₁ : Int := if 2 ^ 53 * s₀.2 ≤ s₀.1 then e₀ + 1 else e₀
  let e₂ : Int := if e₁ < -1074 then -1074 else e₁
  let s := scaleBy a b e₂
  let m := roundHalfEven s.1 s.2
  let r : Nat × Int := if m = 2 ^ 53 then (2 ^ 52, e₂ + 1) else (m, e₂)
  if 971 < r.2 then none else some r

/-- Result of `strconv.ParseFloat(lit, 64)`: the nearest binary64, `none` for the range
error of a literal that rounds to an infinity. A literal too small rounds to zero
without an error. -/
def parseFloat (l : NumLit) : Option F64 :=
  match roundFrac l.frac.1 l.frac.2 with
  | none => none
  | some (m, e) => some ⟨l.isNeg, m, e⟩

/-- Whether `10 ^ k ≤ a / b`. -/
def pow10Le (a b : Nat) (k : Int) : Bool :=
  if 0 ≤ k then decide (b * 10 ^ k.toNat ≤ a) else decide (b ≤ a * 10 ^ (-k).toNat)

/-- The largest `k' ≤ k` with `10 ^ k' ≤ a / b`, looking at most `fuel` steps down. -/
def floorLog10Aux : Nat → Nat → Nat → Int → Int
  | 0, _, _, k => k
  | fuel + 1, a, b, k => if pow10Le a b k then k else floorLog10Aux fuel a b (k - 1)

/-- The decimal exponent of a positive fraction: `floor (log10 (a / b))`, searched
downwards from an estimate that the bit lengths put above it. -/
def floorLog10 (a b : Nat) : Int :=
  floorLog10Aux 8 a b ((((bitLen a : Int) - (bitLen b : Int)) * 30103) / 100000 + 1)

/-- The integer `floor ((a / b) / 10 ^ p)`. -/
def digitsAt (a b : Nat) (p : Int) : Nat :=
  if 0 ≤ p then a / (b * 10 ^ p.toNat) else (a * 10 ^ (-p).toNat) / b

/-- The decimal `c * 10 ^ p` as a fraction. -/
def decFrac (c : Nat) (p : Int) : Nat × Nat :=
  if 0 ≤ p then (c * 10 ^ p.toNat, 1) else (c, 10 ^ (-p).toNat)

/-- The shortest decimal `c * 10 ^ p` that `roundFrac` takes back to the binary64
`(m, e)` of value `a / b`: with `n`, then `n + 1`, … significant digits, the two
decimals around the value are tried, the nearer one first. -/
def shortestAux : Nat → Nat → Nat → Int → Nat → Nat → Nat × Int
  | 0, _, _, _, a, _ => (a, 0)
  | fuel + 1, n, m, e, a, b =>
    let p : Int := floorLog10 a b - (n : Int) + 1
    let lo := digitsAt a b p
    let hi := lo + 1
    let dl := decFrac lo p
    let dh := decFrac hi p
    let okLo := decide (roundFrac dl.1 dl.2 = some (m, e))
    let okHi := decide (roundFrac dh.1 dh.2 = some (m, e))
    let loNearer := decide (2 * a * dl.2 ≤ (dl.1 + dh.1) * b)
    if okLo && (loNearer || !okHi) then (lo, p)
    else if okHi then (if hi % 10 = 0 then (hi / 10, p + 1) else (hi, p))
    else shortestAux fuel (n + 1) m e a b

/-- The literal `encoding/json` writes for a binary64 (`strconv.AppendFloat` with the
shortest digits that parse back to it): plain digits for an integer below `1e21`,
otherwise the shortest digits and their decimal exponent. -/
def formatFloat (f : F64) : NumLit :=
  if f.mant = 0 then .int f.neg 0 else
  let v := scaleBy f.mant 1 (-f.exp)
  let s := shortestAux 17 1 f.mant f.exp v.1 v.2
  if 0 ≤ s.2 ∧ s.1 * 10 ^ s.2.toNat < 10 ^ 21 then .int f.neg (s.1 * 10 ^ s.2.toNat)
  else .real f.neg s.1 s.2

/-- A literal that comes back as the same number from the round trip through an
`interface{}`: `ParseFloat` accepts it, and the literal the encoder writes for the
parsed binary64 (its shortest digits) denotes the same number. That is so for
`-32601`, `0.5`, `0.1` and `9007199254740992`; it is not for `1e400` (out of range),
for `0.1000000000000000055` (written back as `0.1`) nor for `9223372036854775808`,
which binary64 holds exactly but the encoder writes as `9223372036854776000`. -/
def float64RoundTrips (l : NumLit) : Bool :=
  match parseFloat l with
  | some f => (formatFloat f).sameValue l
  | none => false

/-! ## Go values held by `interface{}` -/

/-- A value held by an `interface{}`. `json.Unmarshal` stores nil, bool, float64,
string, `[]interface{}` or `map[string]interface{}`; the composite literals of the
test's mock node also hold an `int`. The entries of a map are listed by ascending
key, one entry a key. -/
inductive GoValue where
  | nil
  | bool (b : Bool)
  | int (i : Int)
  | float64 (f : F64)
  | string (s : String)
  | slice (items : List GoValue)
  | map (entries : List (String × GoValue))
deriving Repr

/-- Lexicographic order on code points, which is the byte order of UTF-8 that
`encoding/json` sorts map keys by. -/
def ltChars : List Char → List Char → Bool
  | _, [] => false
  | [], _ :: _ => true
  | a :: as, b :: bs => decide (a.toNat < b.toNat) || (a.toNat == b.toNat && ltChars as bs)

/-- The assignment `m[k] = v` on a map listed by ascending key. -/
def mapSet (k : String) (v : GoValue) : List (String × GoValue) → List (String × GoValue)
  | [] => [(k, v)]
  | (k', v') :: rest =>
    if k = k' then (k, v) :: rest
    else if ltChars k.data k'.data then (k, v) :: (k', v') :: rest
    else (k', v') :: mapSet k v rest

mutual
/-- Decoding of a document into an `interface{}`. The error is the first number, in
document order, that `ParseFloat` rejects. -/
def decodeAny : JSON → Except NumLit GoValue
  | .null => .ok .nil
  | .bool b => .ok (.bool b)
  | .num l =>
    match parseFloat l with
    | some f => .ok (.float64 f)
    | none => .error l
  | .str s => .ok (.string s)
  | .arr items =>
    match decodeItems items with
    | .ok xs => .ok (.slice xs)
    | .error l => .error l
  | .obj members =>
    match decodeMembers members [] with
    | .ok m => .ok (.map m)
    | .error l => .error l
/-- Decoding of the elements of an array, in order. -/
def decodeItems : List JSON → Except NumLit (List GoValue)
  | [] => .ok []
  | x :: xs =>
    match decodeAny x with
    | .error l => .error l
    | .ok g =>
      match decodeItems xs with
      | .ok gs => .ok (g :: gs)
      | .error l => .error l
/-- Decoding of the members of an object into the map built so far, in order: a
repeated name overwrites the earlier entry. -/
def decodeMembers : List (String × JSON) → List (String × GoValue) →
    Except NumLit (List (String × GoValue))
  | [], m => .ok m
  | (k, v) :: rest, m =>
    match decodeAny v with
    | .error l => .error l
    | .ok g => decodeMembers rest (mapSet k g m)
end

mutual
/-- Encoding of an `interface{}` by `json.Marshal`. A string is written as it is: Go
strings are taken to be valid UTF-8 (for a bad byte the encoder writes U+FFFD). -/
def encodeAny : GoValue → JSON
  | .nil => .null
  | .bool b => .bool b
  | .int i => .num (NumLit.ofInt i)
  | .float64 f => .num (formatFloat f)
  | .string s => .str s
  | .slice items => .arr (encodeItems items)
  | .map entries => .obj (encodeEntries entries)
/-- Encoding of the elements of a slice. -/
def encodeItems : List GoValue → List JSON
  | [] => []
  | x :: xs => encodeAny x :: encodeItems xs
/-- Encoding of the entries of a map, in key order. -/
def encodeEntries : List (String × GoValue) → List (String × JSON)
  | [] => []
  | (k, v) :: rest => (k, encodeAny v) :: encodeEntries rest
end

/-- The map a composite literal `map[string]interface{}{...}` builds. -/
def GoValue.mapOf (entries : List (String × GoValue)) : GoValue :=
  .map (entries.foldl (fun m kv => mapSet kv.1 kv.2 m) [])

/-! ## Errors -/

/-- The kind of a JSON value, as `encoding/json` names it in a type error. -/
def JSON.kind : JSON → String
  | .null => "null"
  | .bool _ => "bool"
  | .num _ => "number"
  | .str _ => "string"
  | .arr _ => "array"
  | .obj _ => "object"

/-- Text of a literal, in one fixed layout (the layout of the source is not kept). -/
def NumLit.text : NumLit → String
  | .int neg mag => (if neg then "-" else "") ++ toString mag
  | .real neg mant exp10 => (if neg then "-" else "") ++ toString mant ++ "e" ++ toString exp10

/-- The errors `sendRequest` can return. `transport` is the error of `http.Post`,
`read` the one of `io.ReadAll`, `invalidJSON` a `*json.SyntaxError` with the
scanner's message, `unmarshalType` a `*json.UnmarshalTypeError`. Of a type error the
kind is kept exactly; its text is kept up to the layout of a quoted number and the
place inside a value. -/
inductive GoError where
  | transport (msg : String)
  | read (msg : String)
  | invalidJSON (msg : String)
  | unmarshalType (value : String) (struct : String) (field : String) (goType : String)
deriving DecidableEq, Repr

/-- The method `Error()` of an error. -/
def GoError.Error : GoError → String
  | .transport msg => msg
  | .read msg => msg
  | .invalidJSON msg => msg
  | .unmarshalType value struct field goType =>
    if struct = "" ∧ field = "" then
      "json: cannot unmarshal " ++ value ++ " into Go value of type " ++ goType
    else
      "json: cannot unmarshal " ++ value ++ " into Go struct field " ++ struct ++ "."
        ++ field ++ " of type " ++ goType

/-- Whether an error comes from decoding the body (`json.Unmarshal`). -/
def GoError.isDecodeError : GoError → Bool
  | .invalidJSON _ => true
  | .unmarshalType _ _ _ _ => true
  | _ => false

/-! ## The structures of `main.go` and their JSON form -/

/-- JSON-RPC request structure. `Params` is `[]interface{}` with tag
`params,omitempty`; a nil and an empty slice are both the empty list. -/
structure JSONRPCRequest where
  JSONRPC : String
  Method : String
  Params : List GoValue
  ID : Int
deriving Repr

/-- JSON-RPC response structure. `Result` and `Error` are `interface{}` with
`omitempty`. -/
structure JSONRPCResponse where
  JSONRPC : String
  Result : GoValue
  Error : GoValue
  ID : Int
deriving Repr

/-- Simple case folding of a rune onto the lower-case ASCII letter of its orbit: the
upper-case ASCII letters, U+017F (long s) and U+212A (Kelvin sign). -/
def foldRune (c : Char) : Char :=
  if 65 ≤ c.toNat ∧ c.toNat ≤ 90 then Char.ofNat (c.toNat + 32)
  else if c.toNat = 0x17F then 's'
  else if c.toNat = 0x212A then 'k'
  else c

/-- Whether a member name selects the struct field of the given (lower-case ASCII)
JSON name: `encoding/json` takes an exact match and otherwise a match under case
folding. -/
def equalFold (key field : String) : Bool :=
  decide (key.data.map foldRune = field.data)

/-- Decoding of a member into a `string` field holding `cur`. -/
def decodeString (struct field : String) (cur : String) : JSON → Except GoError String
  | .null => .ok cur
  | .str s => .ok s
  | v => .error (.unmarshalType v.kind struct field "string")

/-- Decoding of a member into an `int` field holding `cur`. -/
def decodeInt (struct field : String) (cur : Int) : JSON → Except GoError Int
  | .null => .ok cur
  | .num l =>
    match parseInt64 l with
    | some i => .ok i
    | none => .error (.unmarshalType ("number " ++ l.text) struct field "int")
  | v => .error (.unmarshalType v.kind struct field "int")

/-- Decoding of a member into an `interface{}` field. The error names the struct
field; `encoding/json` goes on to name the place inside the value
(`JSONRPCResponse.error.data`), which is not kept here. -/
def decodeInterface (struct field : String) (v : JSON) : Except GoError GoValue :=
  match decodeAny v with
  | .ok g => .ok g
  | .error l => .error (.unmarshalType ("number " ++ l.text) struct field "float64")

/-- Decoding of a member into a `[]interface{}` field. -/
def decodeSlice (struct field : String) : JSON → Except GoError (List GoValue)
  | .null => .ok []
  | .arr items =>
    match decodeItems items with
    | .ok gs => .ok gs
    | .error l => .error (.unmarshalType ("number " ++ l.text) struct field "float64")
  | v => .error (.unmarshalType v.kind struct field "[]interface {}")

/-- Decoding of the members of an object into a struct, in order: `set` stores one
member. `encoding/json` records the first type error and goes on; the callers here
drop the struct when there is an error, so the first error ends the decoding. -/
def decodeFields {α : Type} (set : α → String → JSON → Except GoError α) :
    List (String × JSON) → α → Except GoError α
  | [], r => .ok r
  | (k, v) :: rest, r =>
    match set r k v with
    | .error e => .error e
    | .ok r' => decodeFields set rest r'

/-- One member of a response object stored into the struct. A member that names no
field is skipped. -/
def JSONRPCResponse.setField (r : JSONRPCResponse) (key : String) (v : JSON) :
    Except GoError JSONRPCResponse :=
  if equalFold key "jsonrpc" then
    match decodeString "JSONRPCResponse" "jsonrpc" r.JSONRPC v with
    | .ok s => .ok { r with JSONRPC := s }
    | .error e => .error e
  else if equalFold key "result" then
    match decodeInterface "JSONRPCResponse" "result" v with
    | .ok g => .ok { r with Result := g }
    | .error e => .error e
  else if equalFold key "error" then
    match decodeInterface "JSONRPCResponse" "error" v with
    | .ok g => .ok { r with Error := g }
    | .error e => .error e
  else if equalFold key "id" then
    match decodeInt "JSONRPCResponse" "id" r.ID v with
    | .ok i => .ok { r with ID := i }
    | .error e => .error e
  else .ok r

/-- The zero value `var response JSONRPCResponse`. -/
def JSONRPCResponse.zero : JSONRPCResponse := ⟨"", .nil, .nil, 0⟩

/-- Decoding of a document into a fresh `JSONRPCResponse`: `null` leaves the zero
value, an object is decoded member by member, anything else is a type error. -/
def unmarshalResponse : JSON → Except GoError JSONRPCResponse
  | .null => .ok JSONRPCResponse.zero
  | .obj members => decodeFields JSONRPCResponse.setField members JSONRPCResponse.zero
  | v => .error (.unmarshalType v.kind "" "" "main.JSONRPCResponse")

/-- One member of a request object stored into the struct. -/
def JSONRPCRequest.setField (r : JSONRPCRequest) (key : String) (v : JSON) :
    Except GoError JSONRPCRequest :=
  if equalFold key "jsonrpc" then
    match decodeString "JSONRPCRequest" "jsonrpc" r.JSONRPC v with
    | .ok s => .ok { r with JSONRPC := s }
    | .error e => .error e
  else if equalFold key "method" then
    match decodeString "JSONRPCRequest" "method" r.Method v with
    | .ok s => .ok { r with Method := s }
    | .error e => .error e
  else if equalFold key "params" then
    match decodeSlice "JSONRPCRequest" "params" v with
    | .ok gs => .ok { r with Params := gs }
    | .error e => .error e
  else if equalFold key "id" then
    match decodeInt "JSONRPCRequest" "id" r.ID v with
    | .ok i => .ok { r with ID := i }
    | .error e => .error e
  else .ok r

/-- Decoding of a document into a fresh `JSONRPCRequest`. -/
def unmarshalRequest : JSON → Except GoError JSONRPCRequest
  | .null => .ok ⟨"", "", [], 0⟩
  | .obj members => decodeFields JSONRPCRequest.setField members ⟨"", "", [], 0⟩
  | v => .error (.unmarshalType v.kind "" "" "main.JSONRPCRequest")

/-- The document `json.Marshal` writes for a request: `params` is left out when
empty. -/
def marshalRequest (r : JSONRPCRequest) : JSON :=
  .obj ([("jsonrpc", .str r.JSONRPC), ("method", .str r.Method)]
    ++ (if r.Params.isEmpty then [] else [("params", .arr (encodeItems r.Params))])
    ++ [("id", .num (NumLit.ofInt r.ID))])

/-- The member `json.Marshal` writes for an `interface{}` field tagged `omitempty`:
none for a nil interface. -/
def omitEmpty (name : String) : GoValue → List (String × JSON)
  | .nil => []
  | v => [(name, encodeAny v)]

/-- The document `json.Marshal` writes for a response. -/
def marshalResponse (r : JSONRPCResponse) : JSON :=
  .obj ([("jsonrpc", .str r.JSONRPC)] ++ omitEmpty "result" r.Result
    ++ omitEmpty "error" r.Error ++ [("id", .num (NumLit.ofInt r.ID))])

/-! ## The node and the RPC client -/

/-- The bytes of an HTTP body, up to JSON parsing: the text of one JSON document, or
bytes that are no JSON document, with the message of the `*json.SyntaxError` that
`json.Unmarshal` reports for them. -/
inductive Body where
  | notJSON (text : String) (scanError : String)
  | json (doc : JSON)
deriving Repr

/-- Outcome of `io.ReadAll(resp.Body)`. -/
inductive ReadResult where
  | failed (msg : String)
  | data (body : Body)
deriving Repr

/-- Outcome of `http.Post`: an error, or a response with its status code and body. -/
inductive PostResult where
  | failed (msg : String)
  | response (statusCode : Nat) (body : ReadResult)
deriving Repr

/-- One `http.Post(url, contentType, body)`; the body is the document written. -/
structure PostCall where
  url : String
  contentType : String
  body : JSON
deriving Repr

/-- The node behind the endpoint: in a state, it answers a POST and moves to its next
state. Nothing is assumed about it. -/
abbrev Upstream (σ : Type) := σ → PostCall → PostResult × σ

/-- What a call leaves behind: its result, the node's state after it and the POSTs it
made, in order. -/
structure Sent (σ : Type) (α : Type) where
  result : α
  state : σ
  posts : List PostCall

/-- Default RPC endpoint. -/
def defaultRpcURL : String := "https://polygon-rpc.com/"

/-- BlockchainClient represents the client for interacting with the blockchain. -/
structure BlockchainClient where
  rpcURL : String
deriving DecidableEq, Repr

/-- NewBlockchainClient creates a new blockchain client. -/
def NewBlockchainClient (rpcURL : String) : BlockchainClient :=
  if rpcURL = "" then ⟨defaultRpcURL⟩ else ⟨rpcURL⟩

/-- Outcome of `json.Marshal(request)`: a request whose params are values of the
kinds of `GoValue` always has an encoding. -/
def jsonMarshal (request : JSONRPCRequest) : Except GoError JSON :=
  .ok (marshalRequest request)

/-- Outcome of `json.Unmarshal(body, &response)` on a fresh response. -/
def jsonUnmarshal : Body → Except GoError JSONRPCResponse
  | .notJSON _ scanError => .error (.invalidJSON scanError)
  | .json doc => unmarshalResponse doc

/-- The method sendRequest sends a JSON-RPC request to the blockchain node. The
status code of the response is not looked at. -/
def BlockchainClient.sendRequest {σ : Type} (up : Upstream σ) (s : σ)
    (bc : BlockchainClient) (request : JSONRPCRequest) :
    Sent σ (Except GoError JSONRPCResponse) :=
  match jsonMarshal request with
  | .error err => ⟨.error err, s, []⟩
  | .ok requestBody =>
    let call : PostCall := ⟨bc.rpcURL, "application/json", requestBody⟩
    match up s call with
    | (.failed msg, s') => ⟨.error (.transport msg), s', [call]⟩
    | (.response _ (.failed msg), s') => ⟨.error (.read msg), s', [call]⟩
    | (.response _ (.data body), s') =>
      match jsonUnmarshal body with
      | .error err => ⟨.error err, s', [call]⟩
      | .ok response => ⟨.ok response, s', [call]⟩

/-- The method GetBlockNumber returns the latest block number. -/
def BlockchainClient.GetBlockNumber {σ : Type} (up : Upstream σ) (s : σ)
    (bc : BlockchainClient) : Sent σ (Except GoError JSONRPCResponse) :=
  let request : JSONRPCRequest :=
    { JSONRPC := "2.0", Method := "eth_blockNumber", Params := [], ID := 2 }
  bc.sendRequest up s request

/-- The method GetBlockByNumber returns block details for a given block number. -/
def BlockchainClient.GetBlockByNumber {σ : Type} (up : Upstream σ) (s : σ)
    (bc : BlockchainClient) (blockNumber : String) (fullTransactions : Bool) :
    Sent σ (Except GoError JSONRPCResponse) :=
  let request : JSONRPCRequest :=
    { JSONRPC := "2.0", Method := "eth_getBlockByNumber",
      Params := [.string blockNumber, .bool fullTransactions], ID := 2 }
  bc.sendRequest up s request

/-! ## The gin routes -/

/-- An incoming request as gin hands it to the router: method, `URL.Path` (decoded)
and the pairs of `URL.Query()`, in the order of the query string. -/
structure HTTPRequest where
  method : String
  path : String
  query : List (String × String)
deriving Repr

/-- A response written with `c.JSON(status, value)`: the status and the document
`json.Marshal` writes for the value. -/
structure HTTPResponse where
  status : Nat
  body : JSON
deriving Repr

/-- The document of `gin.H{key: value}` with a string value. -/
def ginH (key value : String) : JSON := .obj [(key, .str value)]

/-- The method `c.DefaultQuery(key, defaultValue)`: the first value of the key in the
query, the default when the key is not there. -/
def DefaultQuery (query : List (String × String)) (key defaultValue : String) : String :=
  match query.lookup key with
  | some value => value
  | none => defaultValue

/-- The three routes registered on the router. -/
inductive Route where
  | blockNumber
  | block (number : String)
  | health
deriving DecidableEq, Repr

/-- What is left of `path` after the leading characters `lead`, if it starts with
them. -/
def afterLead : List Char → List Char → Option (List Char)
  | [], path => some path
  | _ :: _, [] => none
  | c :: lead, d :: path => if c = d then afterLead lead path else none

/-- The route a request is dispatched to: GET on `/api/block-number`, on
`/api/block/:number` (the parameter is one non-empty path segment) or on `/health`.
For any other request no handler of the program runs (gin answers by itself). -/
def route (req : HTTPRequest) : Option Route :=
  if req.method ≠ "GET" then none
  else if req.path = "/api/block-number" then some .blockNumber
  else if req.path = "/health" then some .health
  else
    match afterLead "/api/block/".data req.path.data with
    | some seg => if seg ≠ [] ∧ '/' ∉ seg then some (.block ⟨seg⟩) else none
    | none => none

/-- Handler of `GET /api/block-number`. -/
def handleBlockNumber {σ : Type} (up : Upstream σ) (s : σ) (client : BlockchainClient) :
    Sent σ HTTPResponse :=
  let r := client.GetBlockNumber up s
  match r.result with
  | .error err => ⟨⟨500, ginH "error" err.Error⟩, r.state, r.posts⟩
  | .ok response => ⟨⟨200, marshalResponse response⟩, r.state, r.posts⟩

/-- Handler of `GET /api/block/:number`. -/
def handleBlock {σ : Type} (up : Upstream σ) (s : σ) (client : BlockchainClient)
    (number : String) (query : List (String × String)) : Sent σ HTTPResponse :=
  let blockNumber := number
  let fullTx := decide (DefaultQuery query "full" "true" = "true")
  let r := client.GetBlockByNumber up s blockNumber fullTx
  match r.result with
  | .error err => ⟨⟨500, ginH "error" err.Error⟩, r.state, r.posts⟩
  | .ok response => ⟨⟨200, marshalResponse response⟩, r.state, r.posts⟩

/-- Handler of `GET /health`. -/
def handleHealth {σ : Type} (s : σ) : Sent σ HTTPResponse :=
  ⟨⟨200, ginH "status" "ok"⟩, s, []⟩

/-- The router of `main` (and of the test's `setupRouter`) serving one request against
a node in state `s`; `none` when the request matches no route. -/
def ServeHTTP {σ : Type} (up : Upstream σ) (s : σ) (rpcURL : String) (req : HTTPRequest) :
    Option (Sent σ HTTPResponse) :=
  let client := NewBlockchainClient rpcURL
  match route req with
  | some .blockNumber => some (handleBlockNumber up s client)
  | some (.block number) => some (handleBlock up s client number req.query)
  | some .health => some (handleHealth s)
  | none => none

/-! ## The mock node of the test -/

/-- The response `json.NewEncoder(w).Encode(response)` writes, with status 200. -/
def mockRespond (response : JSONRPCResponse) : PostResult :=
  .response 200 (.data (.json (marshalResponse response)))

/-- The response `http.Error(w, text, code)` writes: a plain text body. -/
def httpError (text : String) (code : Nat) : PostResult :=
  .response code (.data (.notJSON (text ++ "\n")
    ("invalid character '" ++ (text.take 1) ++ "' looking for beginning of value")))

/-- The handler of `setupMockRPCServer` on a request body. Indexing the empty params
of an `eth_getBlockByNumber` request panics, and the client sees the connection
closed (`EOF`, which `setupMockRPCServer` wraps as `http.Post` does). -/
def mockHandler (body : JSON) : PostResult :=
  match unmarshalRequest body with
  | .error err => httpError err.Error 400
  | .ok req =>
    if req.Method = "eth_blockNumber" then
      mockRespond { JSONRPC := "2.0", Result := .string "0x1234567", Error := .nil, ID := req.ID }
    else if req.Method = "eth_getBlockByNumber" then
      match req.Params with
      | [] => .failed "EOF"
      | .string blockNumber :: _ =>
        if blockNumber = "" then httpError "Invalid block number" 400
        else
          mockRespond {
            JSONRPC := "2.0",
            Result := GoValue.mapOf [
              ("number", .string blockNumber),
              ("hash", .string "0xabc123..."),
              ("parentHash", .string "0xdef456..."),
              ("nonce", .string "0x1234"),
              ("timestamp", .string "0x6789"),
              ("transactions", .slice []),
              ("transactionsRoot", .string "0xghi789...")],
            Error := .nil,
            ID := req.ID }
      | _ :: _ => httpError "Invalid block number" 400
    else
      mockRespond {
        JSONRPC := "2.0",
        Result := .nil,
        Error := GoValue.mapOf [("code", .int (-32601)), ("message", .string "Method not found")],
        ID := req.ID }

/-- The mock node as an upstream: it keeps no state. A connection closed under the
client comes back from `http.Post` as the error `Post "<url>": EOF`. -/
def setupMockRPCServer {σ : Type} : Upstream σ :=
  fun s call =>
    match mockHandler call.body with
    | .failed msg => (.failed ("Post \"" ++ call.url ++ "\": " ++ msg), s)
    | answer => (answer, s)

/-! ## Notions of the specification: JSON values, envelopes -/

/-- Equality of two documents as JSON values: numbers by value, arrays element by
element, objects member by member under the same names, whatever their order. -/
inductive JSON.Same : JSON → JSON → Prop where
  | null : JSON.Same .null .null
  | bool (b : Bool) : JSON.Same (.bool b) (.bool b)
  | num {a b : NumLit} (h : a.sameValue b = true) : JSON.Same (.num a) (.num b)
  | str (s : String) : JSON.Same (.str s) (.str s)
  | arr {xs ys : List JSON} (h : List.Forall₂ JSON.Same xs ys) : JSON.Same (.arr xs) (.arr ys)
  | obj {ms ns : List (String × JSON)}
      (names : ∀ k, (ms.lookup k).isSome = (ns.lookup k).isSome)
      (values : ∀ k v w, ms.lookup k = some v → ns.lookup k = some w → JSON.Same v w) :
      JSON.Same (.obj ms) (.obj ns)

mutual
/-- A document that decoding into an `interface{}` and encoding again gives back as
the same JSON value: no object in it repeats a member name (a Go map keeps the last
one), and every number in it comes back as the same number (`float64RoundTrips`). -/
def JSON.roundTripSafe : JSON → Bool
  | .num l => float64RoundTrips l
  | .arr items => roundTripSafeItems items
  | .obj members => decide ((members.map Prod.fst).Nodup) && roundTripSafeMembers members
  | _ => true
/-- Every element comes back as the same JSON value. -/
def roundTripSafeItems : List JSON → Bool
  | [] => true
  | x :: xs => x.roundTripSafe && roundTripSafeItems xs
/-- Every member value comes back as the same JSON value. -/
def roundTripSafeMembers : List (String × JSON) → Bool
  | [] => true
  | (_, v) :: rest => v.roundTripSafe && roundTripSafeMembers rest
end

mutual
/-- Every number of the document is within the range of binary64. -/
def JSON.inFloat64Range : JSON → Bool
  | .num l => (parseFloat l).isSome
  | .arr items => inFloat64RangeItems items
  | .obj members => inFloat64RangeMembers members
  | _ => true
/-- Every number of the elements is within the range of binary64. -/
def inFloat64RangeItems : List JSON → Bool
  | [] => true
  | x :: xs => x.inFloat64Range && inFloat64RangeItems xs
/-- Every number of the member values is within the range of binary64. -/
def inFloat64RangeMembers : List (String × JSON) → Bool
  | [] => true
  | (_, v) :: rest => v.inFloat64Range && inFloat64RangeMembers rest
end

/-- The envelope shape of the spec's data model (section 3): an object with a string
`jsonrpc` member and an integer `id` member; `result` and `error` are optional and of
any shape. -/
def envelopeShape : JSON → Bool
  | .obj members =>
    (match members.lookup "jsonrpc" with
      | some (.str _) => true
      | _ => false) &&
    (match members.lookup "id" with
      | some (.num (.int _ _)) => true
      | _ => false)
  | _ => false

/-- The members of a JSON-RPC envelope, typed as the struct takes them: the names
are among `jsonrpc`, `result`, `error` and `id`, none repeated; `jsonrpc` is a string;
`id` is an integer within int64. Nothing is asked of `result` and `error`. -/
def envelopeMembers (members : List (String × JSON)) : Bool :=
  decide ((members.map Prod.fst).Nodup) &&
  members.all (fun kv => decide (kv.1 ∈ ["jsonrpc", "result", "error", "id"])) &&
  (match members.lookup "jsonrpc" with
    | some (.str _) => true
    | _ => false) &&
  (match members.lookup "id" with
    | some (.num l) => (parseInt64 l).isSome
    | _ => false)

/-- A well-formed envelope, given by its members: the members of an envelope
(`envelopeMembers`) whose `result` and `error`, where present, come back as the same
JSON value from the round trip through an `interface{}` (`JSON.roundTripSafe`). -/
def wellFormedEnvelope (members : List (String × JSON)) : Bool :=
  decide ((members.map Prod.fst).Nodup) &&
  members.all (fun kv => decide (kv.1 ∈ ["jsonrpc", "result", "error", "id"])) &&
  (match members.lookup "jsonrpc" with
    | some (.str _) => true
    | _ => false) &&
  (match members.lookup "id" with
    | some (.num l) => (parseInt64 l).isSome
    | _ => false) &&
  (match members.lookup "result" with
    | some v => v.roundTripSafe
    | none => true) &&
  (match members.lookup "error" with
    | some v => v.roundTripSafe
    | none => true)

/-- Whether `json.Unmarshal` stores a member into a `JSONRPCResponse` without a type
error: a member named `jsonrpc` (under case folding) is a string or null, one named
`id` an integer within int64 or null, one named `result` or `error` has its numbers
within the range of binary64; any other member is skipped. -/
def memberFits (key : String) (v : JSON) : Bool :=
  if equalFold key "jsonrpc" then
    (match v with
      | .null => true
      | .str _ => true
      | _ => false)
  else if equalFold key "result" then v.inFloat64Range
  else if equalFold key "error" then v.inFloat64Range
  else if equalFold key "id" then
    (match v with
      | .null => true
      | .num l => (parseInt64 l).isSome
      | _ => false)
  else true

/-- The bodies `json.Unmarshal` decodes into a `JSONRPCResponse` without an error: the
JSON text `null`, and an object all of whose members fit. -/
def decodable : Body → Bool
  | .notJSON _ _ => false
  | .json .null => true
  | .json (.obj members) => members.all (fun kv => memberFits kv.1 kv.2)
  | .json _ => false

/-! ## Concrete nodes and bodies -/

/-- A node that answers every POST with the same outcome. -/
def constantNode (answer : PostResult) : Upstream Unit :=
  fun s _ => (answer, s)

/-- Members of the envelope the mock node writes for an unknown method, with id 2:
`{"jsonrpc":"2.0","error":{"code":-32601,"message":"Method not found"},"id":2}`. -/
def methodNotFoundMembers : List (String × JSON) :=
  [("jsonrpc", .str "2.0"),
   ("error", .obj [("code", .num (.int true 32601)), ("message", .str "Method not found")]),
   ("id", .num (.int false 2))]

/-- A JSON-RPC error envelope whose error object carries a number beyond binary64:
`{"jsonrpc":"2.0","error":{"code":-32000,"message":"execution reverted","data":1e400},"id":2}`. -/
def overflowErrorMembers : List (String × JSON) :=
  [("jsonrpc", .str "2.0"),
   ("error", .obj [("code", .num (.int true 32000)), ("message", .str "execution reverted"),
     ("data", .num (.real false 1 400))]),
   ("id", .num (.int false 2))]

/-- The envelope a node writes for a block it does not have:
`{"jsonrpc":"2.0","result":null,"id":2}`. -/
def nullResultMembers : List (String × JSON) :=
  [("jsonrpc", .str "2.0"), ("result", .null), ("id", .num (.int false 2))]

/-- The envelope of the test's mock node for `eth_blockNumber`:
`{"jsonrpc":"2.0","result":"0x1234567","id":2}`. -/
def blockNumberMembers : List (String × JSON) :=
  [("jsonrpc", .str "2.0"), ("result", .str "0x1234567"), ("id", .num (.int false 2))]

/-- An envelope that answers with another id than the request's:
`{"jsonrpc":"2.0","result":"0x1234567","id":7}`. -/
def otherIdMembers : List (String × JSON) :=
  [("jsonrpc", .str "2.0"), ("result", .str "0x1234567"), ("id", .num (.int false 7))]

/-- The result object the mock node writes for a block, keys ascending, around the
`number` member. -/
def mockBlockResult (number : JSON) : JSON :=
  .obj [("hash", .str "0xabc123..."), ("nonce", .str "0x1234"), ("number", number),
    ("parentHash", .str "0xdef456..."), ("timestamp", .str "0x6789"),
    ("transactions", .arr []), ("transactionsRoot", .str "0xghi789...")]

/-- The envelope the mock node writes for a block, with id 2. -/
def mockBlockDocument (number : JSON) : JSON :=
  .obj [("jsonrpc", .str "2.0"), ("result", mockBlockResult number),
    ("id", .num (.int false 2))]

/-- The first element of the `params` member of a request document. -/
def firstParam (doc : JSON) : Option JSON :=
  match doc.member "params" with
  | some (.arr (p :: _)) => some p
  | _ => none

/-- A node that answers every request that has params with a result object whose
`number` member is the first param, and with the id written as a string:
`{"jsonrpc":"2.0","result":{"number":<first param>},"id":"2"}`. -/
def echoNodeStringId : Upstream Unit :=
  fun s call =>
    match firstParam call.body with
    | some p =>
      (.response 200 (.data (.json (.obj [("jsonrpc", .str "2.0"),
        ("result", .obj [("number", p)]), ("id", .str "2")]))), s)
    | none => (.failed "EOF", s)

/-- Members of the envelope the test's mock node writes for block `0x1234567`. -/
def mockBlockMembers : List (String × JSON) :=
  [("jsonrpc", .str "2.0"), ("result", mockBlockResult (.str "0x1234567")),
    ("id", .num (.int false 2))]

/-! # Theorems -/

/-! ## Routing -/

theorem afterLead_append (lead rest : List Char) : afterLead lead (lead ++ rest) = some rest := by
  induction lead with
  | nil => cases rest <;> rfl
  | cons c lead ih => simp [afterLead, ih]

theorem route_block (number : String) (q : List (String × String))
    (hne : number ≠ "") (hseg : '/' ∉ number.data) :
    route ⟨"GET", "/api/block/" ++ number, q⟩ = some (.block number) := by
  have h1 : ("/api/block/" ++ number) ≠ "/api/block-number" := by
    intro h
    have := congrArg String.data h
    simp [String.data_append] at this
  have h2 : ("/api/block/" ++ number) ≠ "/health" := by
    intro h
    have := congrArg String.data h
    simp [String.data_append] at this
  have h3 : number.data ≠ [] := by
    intro h
    apply hne
    cases number
    simp_all
  have h4 : afterLead "/api/block/".data ("/api/block/" ++ number).data = some number.data := by
    rw [String.data_append]
    exact afterLead_append _ _
  simp only [route, h1, h2, h4]
  simp [h3, hseg]

theorem route_blockNumber (q : List (String × String)) :
    route ⟨"GET", "/api/block-number", q⟩ = some .blockNumber := by
  simp [route]

theorem route_health (q : List (String × String)) :
    route ⟨"GET", "/health", q⟩ = some .health := by
  simp [route]

theorem serve_blockNumber {σ : Type} (up : Upstream σ) (st : σ) (rpcURL : String)
    (q : List (String × String)) :
    ServeHTTP up st rpcURL ⟨"GET", "/api/block-number", q⟩
      = some (handleBlockNumber up st (NewBlockchainClient rpcURL)) := by
  simp only [ServeHTTP, route_blockNumber]

theorem serve_block {σ : Type} (up : Upstream σ) (st : σ) (rpcURL : String)
    (number : String) (q : List (String × String))
    (hne : number ≠ "") (hseg : '/' ∉ number.data) :
    ServeHTTP up st rpcURL ⟨"GET", "/api/block/" ++ number, q⟩
      = some (handleBlock up st (NewBlockchainClient rpcURL) number q) := by
  simp only [ServeHTTP, route_block number q hne hseg]

/-! ## What the client sends -/

theorem sendRequest_posts {σ : Type} (up : Upstream σ) (st : σ) (bc : BlockchainClient)
    (request : JSONRPCRequest) :
    (bc.sendRequest up st request).posts
      = [⟨bc.rpcURL, "application/json", marshalRequest request⟩] := by
  simp only [BlockchainClient.sendRequest, jsonMarshal]
  split <;> first | rfl | (split <;> rfl)

theorem sendRequest_state {σ : Type} (up : Upstream σ) (st : σ) (bc : BlockchainClient)
    (request : JSONRPCRequest) :
    (bc.sendRequest up st request).state
      = (up st ⟨bc.rpcURL, "application/json", marshalRequest request⟩).2 := by
  simp only [BlockchainClient.sendRequest, jsonMarshal]
  generalize up st ⟨bc.rpcURL, "application/json", marshalRequest request⟩ = x
  obtain ⟨r, s'⟩ := x
  rcases r with msg | ⟨code, msg | body⟩
  · rfl
  · rfl
  · simp only
    cases jsonUnmarshal body <;> rfl

/-- C1. On both API routes the handler maps the outcome of its one client call to the
response: status 500 exactly when the call returned an error, with body
`{"error": <message of that error>}`; otherwise status 200 with the JSON encoding of
the envelope the call returned. The handler makes the POSTs of that call and no
other. -/
theorem C1_handler_maps_client_outcome {σ : Type} (up : Upstream σ) (st : σ)
    (rpcURL : String) (q : List (String × String)) (number : String)
    (hne : number ≠ "") (hseg : '/' ∉ number.data) :
    (∃ h, ServeHTTP up st rpcURL ⟨"GET", "/api/block-number", q⟩ = some h ∧
      h.posts = ((NewBlockchainClient rpcURL).GetBlockNumber up st).posts ∧
      (h.result.status = 500 ↔
        ∃ err, ((NewBlockchainClient rpcURL).GetBlockNumber up st).result = .error err) ∧
      (∀ err, ((NewBlockchainClient rpcURL).GetBlockNumber up st).result = .error err →
        h.result = ⟨500, .obj [("error", .str err.Error)]⟩) ∧
      (∀ env, ((NewBlockchainClient rpcURL).GetBlockNumber up st).result = .ok env →
        h.result = ⟨200, marshalResponse env⟩)) ∧
    (∃ h, ServeHTTP up st rpcURL ⟨"GET", "/api/block/" ++ number, q⟩ = some h ∧
      h.posts = ((NewBlockchainClient rpcURL).GetBlockByNumber up st number
        (decide (DefaultQuery q "full" "true" = "true"))).posts ∧
      (h.result.status = 500 ↔
        ∃ err, ((NewBlockchainClient rpcURL).GetBlockByNumber up st number
          (decide (DefaultQuery q "full" "true" = "true"))).result = .error err) ∧
      (∀ err, ((NewBlockchainClient rpcURL).GetBlockByNumber up st number
          (decide (DefaultQuery q "full" "true" = "true"))).result = .error err →
        h.result = ⟨500, .obj [("error", .str err.Error)]⟩) ∧
      (∀ env, ((NewBlockchainClient rpcURL).GetBlockByNumber up st number
          (decide (DefaultQuery q "full" "true" = "true"))).result = .ok env →
        h.result = ⟨200, marshalResponse env⟩)) := by
  constructor
  · refine ⟨_, serve_blockNumber up st rpcURL q, ?_⟩
    unfold handleBlockNumber
    cases hr : ((NewBlockchainClient rpcURL).GetBlockNumber up st).result with
    | error e => simp [hr, ginH]
    | ok env => simp [hr]
  · refine ⟨_, serve_block up st rpcURL number q hne hseg, ?_⟩
    unfold handleBlock
    cases hr : ((NewBlockchainClient rpcURL).GetBlockByNumber up st number
        (decide (DefaultQuery q "full" "true" = "true"))).result with
    | error e => simp [hr, ginH]
    | ok env => simp [hr]

/-- C3. The handler of `/api/block/:number` calls `GetBlockByNumber` with a flag that
is true exactly when `full` is absent from the query or its (first) value is the
string `true`; the flag is the second param of the request posted. -/
theorem C3_full_flag {σ : Type} (up : Upstream σ) (st : σ) (rpcURL : String)
    (q : List (String × String)) (number : String)
    (hne : number ≠ "") (hseg : '/' ∉ number.data) :
    ∃ (h : Sent σ HTTPResponse) (fullTx : Bool),
      ServeHTTP up st rpcURL ⟨"GET", "/api/block/" ++ number, q⟩ = some h ∧
      (fullTx = true ↔ (q.lookup "full" = none ∨ q.lookup "full" = some "true")) ∧
      h.posts = ((NewBlockchainClient rpcURL).GetBlockByNumber up st number fullTx).posts ∧
      h.state = ((NewBlockchainClient rpcURL).GetBlockByNumber up st number fullTx).state ∧
      (∃ doc, h.posts = [⟨(NewBlockchainClient rpcURL).rpcURL, "application/json", doc⟩] ∧
        doc.member "params" = some (.arr [.str number, .bool fullTx])) := by
  refine ⟨_, decide (DefaultQuery q "full" "true" = "true"),
    serve_block up st rpcURL number q hne hseg, ?_, ?_, ?_, ?_⟩
  · unfold DefaultQuery
    cases hq : q.lookup "full" with
    | none => simp
    | some v => simp
  · simp only [handleBlock]
    split <;> rfl
  · simp only [handleBlock]
    split <;> rfl
  · refine ⟨marshalRequest ⟨"2.0", "eth_getBlockByNumber",
      [.string number, .bool (decide (DefaultQuery q "full" "true" = "true"))], 2⟩, ?_, ?_⟩
    · have : (handleBlock up st (NewBlockchainClient rpcURL) number q).posts
          = ((NewBlockchainClient rpcURL).GetBlockByNumber up st number
              (decide (DefaultQuery q "full" "true" = "true"))).posts := by
        simp only [handleBlock]
        split <;> rfl
      rw [this]
      exact sendRequest_posts _ _ _ _
    · simp [marshalRequest, JSON.member, List.lookup, encodeItems, encodeAny]

/-- C4. For every block number and flag, `GetBlockByNumber` hands `sendRequest` the
request with version `2.0`, method `eth_getBlockByNumber`, id 2 and the params
`[blockNumber, fullTransactions]`; the document posted carries exactly these, the
block number unchanged. -/
theorem C4_getBlockByNumber_request {σ : Type} (up : Upstream σ) (st : σ)
    (bc : BlockchainClient) (blockNumber : String) (fullTransactions : Bool) :
    bc.GetBlockByNumber up st blockNumber fullTransactions
        = bc.sendRequest up st
            ⟨"2.0", "eth_getBlockByNumber", [.string blockNumber, .bool fullTransactions], 2⟩ ∧
    (bc.GetBlockByNumber up st blockNumber fullTransactions).posts
        = [⟨bc.rpcURL, "application/json",
            .obj [("jsonrpc", .str "2.0"), ("method", .str "eth_getBlockByNumber"),
              ("params", .arr [.str blockNumber, .bool fullTransactions]),
              ("id", .num (.int false 2))]⟩] := by
  refine ⟨rfl, ?_⟩
  rw [BlockchainClient.GetBlockByNumber, sendRequest_posts]
  rfl

/-- C5. In every state of the node and for every endpoint, `GetBlockNumber` hands
`sendRequest` the request with version `2.0`, method `eth_blockNumber`, id 2 and no
params; the document posted has no `params` member. -/
theorem C5_getBlockNumber_request {σ : Type} (up : Upstream σ) (st : σ)
    (bc : BlockchainClient) :
    bc.GetBlockNumber up st = bc.sendRequest up st ⟨"2.0", "eth_blockNumber", [], 2⟩ ∧
    (∃ doc, (bc.GetBlockNumber up st).posts = [⟨bc.rpcURL, "application/json", doc⟩] ∧
      doc = .obj [("jsonrpc", .str "2.0"), ("method", .str "eth_blockNumber"),
        ("id", .num (.int false 2))] ∧
      doc.member "params" = none) := by
  refine ⟨rfl, _, ?_, rfl, ?_⟩
  · rw [BlockchainClient.GetBlockNumber, sendRequest_posts]
    rfl
  · simp [JSON.member, List.lookup]

/-- C9. `GET /health` answers 200 with `{"status":"ok"}` whatever the endpoint, the
node and its state: the handler posts nothing and leaves the node as it is. -/
theorem C9_health_constant {σ : Type} (up : Upstream σ) (st : σ) (rpcURL : String)
    (q : List (String × String)) :
    ServeHTTP up st rpcURL ⟨"GET", "/health", q⟩
      = some ⟨⟨200, .obj [("status", .str "ok")]⟩, st, []⟩ := by
  simp only [ServeHTTP, route_health]
  rfl

/-! ## Round trip of a value through `interface{}` -/

theorem lookup_cons_eq {β : Type} (k x : String) (w : β) (rest : List (String × β)) :
    List.lookup k ((x, w) :: rest) = if k = x then some w else List.lookup k rest := by
  by_cases h : k = x
  · subst h
    simp [List.lookup]
  · have hb : (k == x) = false := by simpa using h
    simp [List.lookup, hb, h]

theorem lookup_mapSet (k k' : String) (v : GoValue) (m : List (String × GoValue)) :
    (mapSet k' v m).lookup k = if k = k' then some v else m.lookup k := by
  induction m with
  | nil => simp [mapSet, lookup_cons_eq]
  | cons kv rest ih =>
    obtain ⟨x, w⟩ := kv
    by_cases hx : k' = x
    · subst hx
      by_cases h : k = k' <;> simp [mapSet, lookup_cons_eq, h]
    · by_cases hlt : ltChars k'.data x.data = true
      · by_cases h : k = k' <;> simp [mapSet, lookup_cons_eq, h, hx, hlt]
      · by_cases h : k = k'
        · subst h
          simp [mapSet, lookup_cons_eq, hx, hlt, ih]
        · simp [mapSet, lookup_cons_eq, h, hx, hlt, ih]

theorem lookup_encodeEntries (k : String) (m : List (String × GoValue)) :
    (encodeEntries m).lookup k = (m.lookup k).map encodeAny := by
  induction m with
  | nil => rfl
  | cons kv rest ih =>
    obtain ⟨x, w⟩ := kv
    by_cases h : k = x <;> simp [encodeEntries, lookup_cons_eq, h, ih]

theorem lookup_eq_none_of_not_mem {β : Type} (k : String) (ms : List (String × β))
    (h : k ∉ ms.map Prod.fst) : ms.lookup k = none := by
  induction ms with
  | nil => rfl
  | cons kv rest ih =>
    obtain ⟨x, w⟩ := kv
    simp only [List.map_cons, List.mem_cons, not_or] at h
    simp [lookup_cons_eq, h.1, ih h.2]

mutual
theorem decodeAny_same : ∀ (v : JSON), v.roundTripSafe = true →
    ∃ g, decodeAny v = .ok g ∧ JSON.Same (encodeAny g) v
  | .null, _ => ⟨.nil, rfl, .null⟩
  | .bool b, _ => ⟨.bool b, rfl, .bool b⟩
  | .str s, _ => ⟨.string s, rfl, .str s⟩
  | .num l, h => by
    simp only [JSON.roundTripSafe, float64RoundTrips] at h
    cases hp : parseFloat l with
    | none => simp [hp] at h
    | some f =>
      simp only [hp] at h
      exact ⟨.float64 f, by simp [decodeAny, hp], by simpa [encodeAny] using JSON.Same.num h⟩
  | .arr items, h => by
    simp only [JSON.roundTripSafe] at h
    obtain ⟨gs, hgs, hsame⟩ := decodeItems_same items h
    exact ⟨.slice gs, by simp [decodeAny, hgs], by simpa [encodeAny] using JSON.Same.arr hsame⟩
  | .obj members, h => by
    simp only [JSON.roundTripSafe, Bool.and_eq_true, decide_eq_true_eq] at h
    obtain ⟨m, hm, hspec⟩ := decodeMembers_same members [] h.2 h.1
    refine ⟨.map m, by simp [decodeAny, hm], ?_⟩
    simp only [encodeAny]
    refine JSON.Same.obj ?_ ?_
    · intro k
      have := hspec k
      rw [lookup_encodeEntries]
      cases hk : members.lookup k with
      | none =>
        simp only [hk] at this
        rw [this]
        rfl
      | some v =>
        simp only [hk] at this
        obtain ⟨g, hg, _⟩ := this
        simp [hg]
    · intro k v w hv hw
      have := hspec k
      rw [lookup_encodeEntries] at hv
      simp only [hw] at this
      obtain ⟨g, hg, hs⟩ := this
      simp only [hg, Option.map_some', Option.some.injEq] at hv
      subst hv
      exact hs
theorem decodeItems_same : ∀ (xs : List JSON), roundTripSafeItems xs = true →
    ∃ gs, decodeItems xs = .ok gs ∧ List.Forall₂ JSON.Same (encodeItems gs) xs
  | [], _ => ⟨[], rfl, .nil⟩
  | x :: xs, h => by
    simp only [roundTripSafeItems, Bool.and_eq_true] at h
    obtain ⟨g, hg, hs⟩ := decodeAny_same x h.1
    obtain ⟨gs, hgs, hss⟩ := decodeItems_same xs h.2
    exact ⟨g :: gs, by simp [decodeItems, hg, hgs], by simpa [encodeItems] using List.Forall₂.cons hs hss⟩
theorem decodeMembers_same : ∀ (ms : List (String × JSON)) (acc : List (String × GoValue)),
    roundTripSafeMembers ms = true → (ms.map Prod.fst).Nodup →
    ∃ m, decodeMembers ms acc = .ok m ∧
      ∀ k, match ms.lookup k with
        | some v => ∃ g, m.lookup k = some g ∧ JSON.Same (encodeAny g) v
        | none => m.lookup k = acc.lookup k
  | [], acc, _, _ => ⟨acc, rfl, fun _ => rfl⟩
  | (x, v) :: rest, acc, h, hnd => by
    simp only [roundTripSafeMembers, Bool.and_eq_true] at h
    simp only [List.map_cons, List.nodup_cons] at hnd
    obtain ⟨g, hg, hs⟩ := decodeAny_same v h.1
    obtain ⟨m, hm, hspec⟩ := decodeMembers_same rest (mapSet x g acc) h.2 hnd.2
    refine ⟨m, by simp [decodeMembers, hg, hm], ?_⟩
    intro k
    have hk := hspec k
    by_cases hkx : k = x
    · subst hkx
      have hnone : rest.lookup k = none := lookup_eq_none_of_not_mem k rest hnd.1
      simp only [hnone, lookup_mapSet, if_true] at hk
      simp only [lookup_cons_eq, if_true]
      exact ⟨g, hk, hs⟩
    · simp only [lookup_cons_eq, if_neg hkx]
      cases hr : rest.lookup k with
      | some w => simpa [hr] using hk
      | none => simpa [hr, lookup_mapSet, hkx] using hk
end

/-! ## Decoding a well-formed envelope -/

theorem setField_jsonrpc (r : JSONRPCResponse) (v : JSON) :
    r.setField "jsonrpc" v =
      match decodeString "JSONRPCResponse" "jsonrpc" r.JSONRPC v with
      | .ok s => .ok { r with JSONRPC := s }
      | .error e => .error e := by
  have h : equalFold "jsonrpc" "jsonrpc" = true := by decide
  simp only [JSONRPCResponse.setField, h, if_true]

theorem setField_result (r : JSONRPCResponse) (v : JSON) :
    r.setField "result" v =
      match decodeInterface "JSONRPCResponse" "result" v with
      | .ok g => .ok { r with Result := g }
      | .error e => .error e := by
  have h₁ : equalFold "result" "jsonrpc" = false := by decide
  have h₂ : equalFold "result" "result" = true := by decide
  simp [JSONRPCResponse.setField, h₁, h₂]

theorem setField_error (r : JSONRPCResponse) (v : JSON) :
    r.setField "error" v =
      match decodeInterface "JSONRPCResponse" "error" v with
      | .ok g => .ok { r with Error := g }
      | .error e => .error e := by
  have h₁ : equalFold "error" "jsonrpc" = false := by decide
  have h₂ : equalFold "error" "result" = false := by decide
  have h₃ : equalFold "error" "error" = true := by decide
  simp [JSONRPCResponse.setField, h₁, h₂, h₃]

theorem setField_id (r : JSONRPCResponse) (v : JSON) :
    r.setField "id" v =
      match decodeInt "JSONRPCResponse" "id" r.ID v with
      | .ok i => .ok { r with ID := i }
      | .error e => .error e := by
  have h₁ : equalFold "id" "jsonrpc" = false := by decide
  have h₂ : equalFold "id" "result" = false := by decide
  have h₃ : equalFold "id" "error" = false := by decide
  have h₄ : equalFold "id" "id" = true := by decide
  simp [JSONRPCResponse.setField, h₁, h₂, h₃, h₄]

/-- What the members of a well-formed envelope say about each field. -/
theorem decodeFields_wellFormed : ∀ (ms : List (String × JSON)) (r : JSONRPCResponse),
    (ms.map Prod.fst).Nodup →
    (∀ kv ∈ ms, kv.1 ∈ ["jsonrpc", "result", "error", "id"]) →
    (∀ v, ms.lookup "jsonrpc" = some v → ∃ s, v = .str s) →
    (∀ v, ms.lookup "id" = some v → ∃ l i, v = .num l ∧ parseInt64 l = some i) →
    (∀ v, ms.lookup "result" = some v → ∃ g, decodeAny v = .ok g) →
    (∀ v, ms.lookup "error" = some v → ∃ g, decodeAny v = .ok g) →
    ∃ r', decodeFields JSONRPCResponse.setField ms r = .ok r' ∧
      (match ms.lookup "jsonrpc" with
        | some v => v = .str r'.JSONRPC
        | none => r'.JSONRPC = r.JSONRPC) ∧
      (match ms.lookup "id" with
        | some v => ∃ l, v = .num l ∧ parseInt64 l = some r'.ID
        | none => r'.ID = r.ID) ∧
      (match ms.lookup "result" with
        | some v => decodeAny v = .ok r'.Result
        | none => r'.Result = r.Result) ∧
      (match ms.lookup "error" with
        | some v => decodeAny v = .ok r'.Error
        | none => r'.Error = r.Error)
  | [], r, _, _, _, _, _, _ => ⟨r, rfl, rfl, rfl, rfl, rfl⟩
  | (k, v) :: rest, r, hnd, hall, hj, hid, hres, herr => by
    simp only [List.map_cons, List.nodup_cons] at hnd
    have hk : k ∈ ["jsonrpc", "result", "error", "id"] := hall (k, v) (List.mem_cons_self _ _)
    have hall' : ∀ kv ∈ rest, kv.1 ∈ ["jsonrpc", "result", "error", "id"] :=
      fun kv h => hall kv (List.mem_cons_of_mem _ h)
    have hnone : rest.lookup k = none := lookup_eq_none_of_not_mem k rest hnd.1
    simp only [lookup_cons_eq] at hj hid hres herr ⊢
    simp only [List.mem_cons, List.mem_singleton, List.not_mem_nil, or_false] at hk
    rcases hk with hk | hk | hk | hk <;> subst hk
    · obtain ⟨s, hs⟩ := hj v (by simp)
      subst hs
      obtain ⟨r', hr', h1, h2, h3, h4⟩ := decodeFields_wellFormed rest { r with JSONRPC := s }
        hnd.2 hall' (by simp [hnone]) (by simpa using hid) (by simpa using hres)
        (by simpa using herr)
      refine ⟨r', by simp [decodeFields, setField_jsonrpc, decodeString, hr'], ?_⟩
      simp only [hnone] at h1
      simpa [h1] using ⟨h2, h3, h4⟩
    · obtain ⟨g, hg⟩ := hres v (by simp)
      obtain ⟨r', hr', h1, h2, h3, h4⟩ := decodeFields_wellFormed rest { r with Result := g }
        hnd.2 hall' (by simpa using hj) (by simpa using hid) (by simp [hnone])
        (by simpa using herr)
      refine ⟨r', by simp [decodeFields, setField_result, decodeInterface, hg, hr'], ?_⟩
      simp only [hnone] at h3
      simpa [h3, hg] using ⟨h1, h2, h4⟩
    · obtain ⟨g, hg⟩ := herr v (by simp)
      obtain ⟨r', hr', h1, h2, h3, h4⟩ := decodeFields_wellFormed rest { r with Error := g }
        hnd.2 hall' (by simpa using hj) (by simpa using hid) (by simpa using hres)
        (by simp [hnone])
      refine ⟨r', by simp [decodeFields, setField_error, decodeInterface, hg, hr'], ?_⟩
      simp only [hnone] at h4
      simpa [h4, hg] using ⟨h1, h2, h3⟩
    · obtain ⟨l, i, hl, hi⟩ := hid v (by simp)
      subst hl
      obtain ⟨r', hr', h1, h2, h3, h4⟩ := decodeFields_wellFormed rest { r with ID := i }
        hnd.2 hall' (by simpa using hj) (by simp [hnone]) (by simpa using hres)
        (by simpa using herr)
      refine ⟨r', by simp [decodeFields, setField_id, decodeInt, hi, hr'], ?_⟩
      simp only [hnone] at h2
      simpa [h2, hi] using ⟨h1, h3, h4⟩

theorem decodeAny_deterministic_nil (v : JSON) (h : decodeAny v = .ok .nil) : v = .null := by
  cases v with
  | null => rfl
  | bool b => simp [decodeAny] at h
  | num l =>
    simp only [decodeAny] at h
    cases hp : parseFloat l <;> simp [hp] at h
  | str s => simp [decodeAny] at h
  | arr items =>
    simp only [decodeAny] at h
    cases hp : decodeItems items <;> simp [hp] at h
  | obj members =>
    simp only [decodeAny] at h
    cases hp : decodeMembers members [] <;> simp [hp] at h

theorem sameValue_ofInt (l : NumLit) (i : Int) (h : parseInt64 l = some i) :
    (NumLit.ofInt i).sameValue l = true := by
  cases l with
  | real neg mant e => simp [parseInt64] at h
  | int neg mag =>
    cases neg
    · simp only [parseInt64, Bool.false_eq_true, if_false] at h
      split at h
      · simp only [Option.some.injEq] at h
        subst h
        have : ¬ ((mag : Int) < 0) := by omega
        simp [NumLit.ofInt, NumLit.sameValue, NumLit.frac, NumLit.isNeg, this]
      · simp at h
    · simp only [parseInt64, if_true] at h
      split at h
      · simp only [Option.some.injEq] at h
        subst h
        by_cases hm : mag = 0
        · subst hm
          simp [NumLit.ofInt, NumLit.sameValue, NumLit.frac, NumLit.isNeg]
        · have : (-(mag : Int) < 0) := by omega
          simp [NumLit.ofInt, NumLit.sameValue, NumLit.frac, NumLit.isNeg, this]
      · simp at h

theorem member_marshalResponse_jsonrpc (r : JSONRPCResponse) :
    (marshalResponse r).member "jsonrpc" = some (.str r.JSONRPC) := by
  simp [marshalResponse, JSON.member, lookup_cons_eq]

theorem member_marshalResponse_result (r : JSONRPCResponse) :
    (marshalResponse r).member "result" =
      match r.Result with
      | .nil => none
      | g => some (encodeAny g) := by
  cases hR : r.Result <;> cases hE : r.Error <;>
    simp [marshalResponse, JSON.member, omitEmpty, lookup_cons_eq, hR, hE]

theorem member_marshalResponse_error (r : JSONRPCResponse) :
    (marshalResponse r).member "error" =
      match r.Error with
      | .nil => none
      | g => some (encodeAny g) := by
  cases hR : r.Result <;> cases hE : r.Error <;>
    simp [marshalResponse, JSON.member, omitEmpty, lookup_cons_eq, hR, hE]

theorem member_marshalResponse_id (r : JSONRPCResponse) :
    (marshalResponse r).member "id" = some (.num (NumLit.ofInt r.ID)) := by
  cases hR : r.Result <;> cases hE : r.Error <;>
    simp [marshalResponse, JSON.member, omitEmpty, lookup_cons_eq, hR, hE]

/-- A well-formed envelope decodes, field by field. -/
theorem unmarshal_wellFormed (members : List (String × JSON))
    (hwf : wellFormedEnvelope members = true) :
    ∃ env, unmarshalResponse (.obj members) = .ok env ∧
      members.lookup "jsonrpc" = some (.str env.JSONRPC) ∧
      (∃ l, members.lookup "id" = some (.num l) ∧ parseInt64 l = some env.ID) ∧
      (match members.lookup "result" with
        | some v => decodeAny v = .ok env.Result ∧ JSON.Same (encodeAny env.Result) v
        | none => env.Result = .nil) ∧
      (match members.lookup "error" with
        | some v => decodeAny v = .ok env.Error ∧ JSON.Same (encodeAny env.Error) v
        | none => env.Error = .nil) := by
  simp only [wellFormedEnvelope, Bool.and_eq_true, decide_eq_true_eq, List.all_eq_true] at hwf
  obtain ⟨⟨⟨⟨⟨hnd, hall⟩, hj⟩, hid⟩, hres⟩, herr⟩ := hwf
  have hj' : ∀ v, members.lookup "jsonrpc" = some v → ∃ s, v = .str s := by
    intro v hv
    rw [hv] at hj
    cases v <;> simp_all
  have hid' : ∀ v, members.lookup "id" = some v → ∃ l i, v = .num l ∧ parseInt64 l = some i := by
    intro v hv
    rw [hv] at hid
    cases v with
    | num l =>
      cases hp : parseInt64 l with
      | none => simp [hp] at hid
      | some i => exact ⟨l, i, rfl, hp⟩
    | _ => simp at hid
  have hres' : ∀ v, members.lookup "result" = some v → ∃ g, decodeAny v = .ok g := by
    intro v hv
    rw [hv] at hres
    obtain ⟨g, hg, _⟩ := decodeAny_same v hres
    exact ⟨g, hg⟩
  have herr' : ∀ v, members.lookup "error" = some v → ∃ g, decodeAny v = .ok g := by
    intro v hv
    rw [hv] at herr
    obtain ⟨g, hg, _⟩ := decodeAny_same v herr
    exact ⟨g, hg⟩
  obtain ⟨env, henv, h1, h2, h3, h4⟩ := decodeFields_wellFormed members JSONRPCResponse.zero hnd
    (fun kv h => by simpa using hall kv h) hj' hid' hres' herr'
  refine ⟨env, henv, ?_, ?_, ?_, ?_⟩
  · cases hl : members.lookup "jsonrpc" with
    | none => simp [hl] at hj
    | some v => simp only [hl] at h1; rw [h1]
  · cases hl : members.lookup "id" with
    | none => simp [hl] at hid
    | some v =>
      simp only [hl] at h2
      obtain ⟨l, rfl, hp⟩ := h2
      exact ⟨l, rfl, hp⟩
  · cases hl : members.lookup "result" with
    | none => simpa [hl, JSONRPCResponse.zero] using h3
    | some v =>
      simp only [hl] at h3 hres ⊢
      obtain ⟨g, hg, hs⟩ := decodeAny_same v hres
      rw [hg] at h3
      simp only [Except.ok.injEq] at h3
      subst h3
      exact ⟨hg, hs⟩
  · cases hl : members.lookup "error" with
    | none => simpa [hl, JSONRPCResponse.zero] using h4
    | some v =>
      simp only [hl] at h4 herr ⊢
      obtain ⟨g, hg, hs⟩ := decodeAny_same v herr
      rw [hg] at h4
      simp only [Except.ok.injEq] at h4
      subst h4
      exact ⟨hg, hs⟩

theorem sendRequest_result_of_body {σ : Type} (up : Upstream σ) (st st' : σ)
    (bc : BlockchainClient) (request : JSONRPCRequest) (status : Nat) (body : Body)
    (hup : up st ⟨bc.rpcURL, "application/json", marshalRequest request⟩
      = (.response status (.data body), st')) :
    (bc.sendRequest up st request).result = jsonUnmarshal body := by
  simp only [BlockchainClient.sendRequest, jsonMarshal, hup]
  cases jsonUnmarshal body <;> rfl

/-! ## The handlers on the outcome of the client call -/

theorem handleBlockNumber_ok {σ : Type} (up : Upstream σ) (st : σ) (client : BlockchainClient)
    (env : JSONRPCResponse) (h : (client.GetBlockNumber up st).result = .ok env) :
    (handleBlockNumber up st client).result = ⟨200, marshalResponse env⟩ := by
  simp only [handleBlockNumber, h]

theorem handleBlockNumber_error {σ : Type} (up : Upstream σ) (st : σ)
    (client : BlockchainClient) (err : GoError)
    (h : (client.GetBlockNumber up st).result = .error err) :
    (handleBlockNumber up st client).result = ⟨500, .obj [("error", .str err.Error)]⟩ := by
  simp only [handleBlockNumber, h, ginH]

theorem getBlockNumber_result_of_body {σ : Type} (up : Upstream σ) (st st' : σ)
    (bc : BlockchainClient) (status : Nat) (body : Body)
    (hup : up st ⟨bc.rpcURL, "application/json",
        marshalRequest ⟨"2.0", "eth_blockNumber", [], 2⟩⟩
      = (.response status (.data body), st')) :
    (bc.GetBlockNumber up st).result = jsonUnmarshal body :=
  sendRequest_result_of_body up st st' bc _ status body hup

set_option maxRecDepth 20000 in
set_option exponentiation.threshold 2000 in
/-- C2, counterexample: an error envelope of the spec's shape whose error object
carries the number `1e400`. `json.Unmarshal` reports the number as a type error, so
the gateway answers 500. -/
theorem C2_counterexample_number_beyond_float64 :
    envelopeShape (.obj overflowErrorMembers) = true ∧
    (∃ errorObject, overflowErrorMembers.lookup "error" = some (.obj errorObject)) ∧
    (ServeHTTP (constantNode (.response 200 (.data (.json (.obj overflowErrorMembers))))) ()
        "http://node" ⟨"GET", "/api/block-number", []⟩).map (fun h => h.result.status)
      = some 500 :=
  ⟨by rfl, ⟨_, rfl⟩, by rfl⟩

/-- C7, counterexample: the node's body `{"jsonrpc":"2.0","result":null,"id":2}`
decodes as an envelope and has a `result` member; the body the gateway answers with
status 200 has none. -/
theorem C7_counterexample_null_result_dropped :
    (∃ env, unmarshalResponse (.obj nullResultMembers) = .ok env) ∧
    nullResultMembers.lookup "result" = some .null ∧
    (ServeHTTP (constantNode (.response 200 (.data (.json (.obj nullResultMembers))))) ()
        "http://node" ⟨"GET", "/api/block-number", []⟩).map
          (fun h => (h.result.status, h.result.body.member "result"))
      = some (200, none) :=
  ⟨⟨_, rfl⟩, by rfl, by rfl⟩

/-! ## The mock node -/

theorem marshalRequest_getBlockByNumber (s : String) (full : Bool) :
    marshalRequest ⟨"2.0", "eth_getBlockByNumber", [.string s, .bool full], 2⟩
      = .obj [("jsonrpc", .str "2.0"), ("method", .str "eth_getBlockByNumber"),
          ("params", .arr [.str s, .bool full]), ("id", .num (.int false 2))] :=
  rfl

theorem unmarshalRequest_getBlockByNumber (s : String) (full : Bool) :
    unmarshalRequest (.obj [("jsonrpc", .str "2.0"), ("method", .str "eth_getBlockByNumber"),
          ("params", .arr [.str s, .bool full]), ("id", .num (.int false 2))])
      = .ok ⟨"2.0", "eth_getBlockByNumber", [.string s, .bool full], 2⟩ :=
  rfl

theorem marshalResponse_mock_block (x : GoValue) :
    marshalResponse {
        JSONRPC := "2.0",
        Result := GoValue.mapOf [
          ("number", x),
          ("hash", .string "0xabc123..."),
          ("parentHash", .string "0xdef456..."),
          ("nonce", .string "0x1234"),
          ("timestamp", .string "0x6789"),
          ("transactions", .slice []),
          ("transactionsRoot", .string "0xghi789...")],
        Error := .nil,
        ID := 2 }
      = mockBlockDocument (encodeAny x) :=
  rfl

theorem unmarshalResponse_mock_block (s : String) :
    unmarshalResponse (mockBlockDocument (.str s))
      = .ok ⟨"2.0", .map [
            ("hash", .string "0xabc123..."),
            ("nonce", .string "0x1234"),
            ("number", .string s),
            ("parentHash", .string "0xdef456..."),
            ("timestamp", .string "0x6789"),
            ("transactions", .slice []),
            ("transactionsRoot", .string "0xghi789...")], .nil, 2⟩ :=
  rfl

theorem marshalResponse_decoded_mock_block (s : String) :
    marshalResponse ⟨"2.0", .map [
            ("hash", .string "0xabc123..."),
            ("nonce", .string "0x1234"),
            ("number", .string s),
            ("parentHash", .string "0xdef456..."),
            ("timestamp", .string "0x6789"),
            ("transactions", .slice []),
            ("transactionsRoot", .string "0xghi789...")], .nil, 2⟩
      = mockBlockDocument (.str s) :=
  rfl

theorem mockHandler_getBlockByNumber (s : String) (full : Bool) (hne : s ≠ "") :
    mockHandler (marshalRequest ⟨"2.0", "eth_getBlockByNumber", [.string s, .bool full], 2⟩)
      = .response 200 (.data (.json (mockBlockDocument (.str s)))) := by
  rw [marshalRequest_getBlockByNumber]
  simp only [mockHandler, unmarshalRequest_getBlockByNumber]
  have h1 : ¬ ("eth_getBlockByNumber" = "eth_blockNumber") := by decide
  simp only [h1, if_false, if_true, hne, mockRespond, marshalResponse_mock_block]
  rfl

theorem member_mockBlockDocument (number : JSON) :
    (mockBlockDocument number).member "result" = some (mockBlockResult number) ∧
    (mockBlockResult number).member "number" = some number := by
  constructor
  · simp [mockBlockDocument, JSON.member, lookup_cons_eq]
  · simp [mockBlockResult, JSON.member, lookup_cons_eq]

theorem setupMockRPCServer_response {σ : Type} (st : σ) (url contentType : String)
    (body : JSON) (code : Nat) (answer : ReadResult)
    (h : mockHandler body = .response code answer) :
    (setupMockRPCServer : Upstream σ) st ⟨url, contentType, body⟩
      = (.response code answer, st) := by
  simp only [setupMockRPCServer, h]

theorem mock_post_getBlockByNumber {σ : Type} (st : σ) (bc : BlockchainClient) (s : String)
    (full : Bool) (hne : s ≠ "") :
    (setupMockRPCServer : Upstream σ) st ⟨bc.rpcURL, "application/json",
        marshalRequest ⟨"2.0", "eth_getBlockByNumber", [.string s, .bool full], 2⟩⟩
      = (.response 200 (.data (.json (mockBlockDocument (.str s)))), st) :=
  setupMockRPCServer_response st _ _ _ 200 _ (mockHandler_getBlockByNumber s full hne)

theorem mock_getBlockByNumber_result {σ : Type} (st : σ) (bc : BlockchainClient) (s : String)
    (full : Bool) (hne : s ≠ "") :
    (bc.GetBlockByNumber setupMockRPCServer st s full).result
      = unmarshalResponse (mockBlockDocument (.str s)) := by
  simp only [BlockchainClient.GetBlockByNumber]
  rw [sendRequest_result_of_body setupMockRPCServer st st bc _ 200
      (.json (mockBlockDocument (.str s))) (mock_post_getBlockByNumber st bc s full hne)]
  rfl

theorem handleBlock_ok {σ : Type} (up : Upstream σ) (st : σ) (client : BlockchainClient)
    (number : String) (q : List (String × String)) (env : JSONRPCResponse)
    (h : (client.GetBlockByNumber up st number
      (decide (DefaultQuery q "full" "true" = "true"))).result = .ok env) :
    (handleBlock up st client number q).result = ⟨200, marshalResponse env⟩ := by
  simp only [handleBlock, h]

theorem handleBlock_posts {σ : Type} (up : Upstream σ) (st : σ) (client : BlockchainClient)
    (number : String) (q : List (String × String)) :
    (handleBlock up st client number q).posts
      = [⟨client.rpcURL, "application/json",
          marshalRequest ⟨"2.0", "eth_getBlockByNumber",
            [.string number, .bool (decide (DefaultQuery q "full" "true" = "true"))], 2⟩⟩] := by
  have : (handleBlock up st client number q).posts
      = (client.GetBlockByNumber up st number
          (decide (DefaultQuery q "full" "true" = "true"))).posts := by
    simp only [handleBlock]
    split <;> rfl
  rw [this]
  exact sendRequest_posts _ _ _ _

/-! ## The id of the envelope -/

theorem equalFold_unique (key a b : String) (ha : equalFold key a = true)
    (hb : equalFold key b = true) : a = b := by
  simp only [equalFold, decide_eq_true_eq] at ha hb
  cases a
  cases b
  simp_all

theorem setField_id_of_fold (r r' : JSONRPCResponse) (key : String) (v : JSON)
    (hset : r.setField key v = .ok r') :
    (equalFold key "id" = true → v = .num (.int false 2) → r'.ID = 2) ∧
    (equalFold key "id" = false → r'.ID = r.ID) := by
  have hne : ∀ a : String, a ≠ "id" → equalFold key a = true → equalFold key "id" = false := by
    intro a ha h
    cases hid : equalFold key "id"
    · rfl
    · exact absurd (equalFold_unique key _ _ h hid) ha
  unfold JSONRPCResponse.setField at hset
  cases h1 : equalFold key "jsonrpc"
  · cases h2 : equalFold key "result"
    · cases h3 : equalFold key "error"
      · cases h4 : equalFold key "id"
        · simp [h1, h2, h3, h4] at hset
          subst hset
          simp
        · simp only [h1, h2, h3, h4, if_true, Bool.false_eq_true, if_false] at hset
          refine ⟨?_, by simp⟩
          intro _ hv
          subst hv
          have hp : decodeInt "JSONRPCResponse" "id" r.ID (.num (.int false 2)) = .ok 2 := by
            rfl
          simp only [hp, Except.ok.injEq] at hset
          subst hset
          rfl
      · have hid := hne "error" (by decide) h3
        simp only [h1, h2, h3, if_true, Bool.false_eq_true, if_false] at hset
        split at hset
        · simp only [Except.ok.injEq] at hset
          subst hset
          simp [hid]
        · simp at hset
    · have hid := hne "result" (by decide) h2
      simp only [h1, h2, if_true, Bool.false_eq_true, if_false] at hset
      split at hset
      · simp only [Except.ok.injEq] at hset
        subst hset
        simp [hid]
      · simp at hset
  · have hid := hne "jsonrpc" (by decide) h1
    simp only [h1, if_true] at hset
    split at hset
    · simp only [Except.ok.injEq] at hset
      subst hset
      simp [hid]
    · simp at hset

theorem decodeFields_id : ∀ (ms : List (String × JSON)) (r r' : JSONRPCResponse),
    (∀ kv ∈ ms, equalFold kv.1 "id" = true → kv.2 = .num (.int false 2)) →
    decodeFields JSONRPCResponse.setField ms r = .ok r' →
    r'.ID = 2 ∨ (r'.ID = r.ID ∧ ∀ kv ∈ ms, equalFold kv.1 "id" = false)
  | [], r, r', _, h => by
    simp only [decodeFields, Except.ok.injEq] at h
    subst h
    exact Or.inr ⟨rfl, by simp⟩
  | (k, v) :: rest, r, r', hecho, h => by
    simp only [decodeFields] at h
    cases hset : r.setField k v with
    | error e => simp [hset] at h
    | ok r₁ =>
      simp only [hset] at h
      have hstep := setField_id_of_fold r r₁ k v hset
      have hrest := decodeFields_id rest r₁ r'
        (fun kv hkv => hecho kv (List.mem_cons_of_mem _ hkv)) h
      cases hk : equalFold k "id" with
      | true =>
        have h2 : r₁.ID = 2 := hstep.1 hk (hecho (k, v) (List.mem_cons_self _ _) hk)
        rcases hrest with hrest | ⟨hrest, _⟩
        · exact Or.inl hrest
        · exact Or.inl (by rw [hrest, h2])
      | false =>
        have h2 : r₁.ID = r.ID := hstep.2 hk
        rcases hrest with hrest | ⟨hrest, hno⟩
        · exact Or.inl hrest
        · refine Or.inr ⟨by rw [hrest, h2], ?_⟩
          intro kv hkv
          rcases List.mem_cons.1 hkv with rfl | hkv
          · exact hk
          · exact hno kv hkv

/-- C8 (amended). The client does not compare the id of the envelope with the id of
its request: the id `GetBlockNumber` returns is the one the node's body carries. When
that body is an object whose `id` member (at least one, names taken under case
folding) carries 2, the id of the request, every envelope returned without an error
has id 2. -/
theorem C8_id_echoed_by_the_node {σ : Type} (up : Upstream σ) (st st' : σ)
    (bc : BlockchainClient) (status : Nat) (members : List (String × JSON))
    (env : JSONRPCResponse)
    (hup : up st ⟨bc.rpcURL, "application/json",
        marshalRequest ⟨"2.0", "eth_blockNumber", [], 2⟩⟩
      = (.response status (.data (.json (.obj members))), st'))
    (hecho : ∀ kv ∈ members, equalFold kv.1 "id" = true → kv.2 = .num (.int false 2))
    (hid : ∃ kv ∈ members, equalFold kv.1 "id" = true)
    (hok : (bc.GetBlockNumber up st).result = .ok env) :
    env.ID = 2 := by
  rw [getBlockNumber_result_of_body up st st' bc status _ hup] at hok
  rcases decodeFields_id members JSONRPCResponse.zero env hecho hok with h | ⟨_, hno⟩
  · exact h
  · obtain ⟨kv, hkv, hfold⟩ := hid
    rw [hno kv hkv] at hfold
    cases hfold

/-- C8, witness: the test's mock node, which answers with the id of the request. -/
theorem C8_witness_mock_node :
    (setupMockRPCServer : Upstream Unit) () ⟨"http://mock", "application/json",
        marshalRequest ⟨"2.0", "eth_blockNumber", [], 2⟩⟩
      = (.response 200 (.data (.json (.obj blockNumberMembers))), ()) ∧
    ((⟨"http://mock"⟩ : BlockchainClient).GetBlockNumber setupMockRPCServer ()).result
      = .ok ⟨"2.0", .string "0x1234567", .nil, 2⟩ ∧
    (JSONRPCResponse.mk "2.0" (.string "0x1234567") .nil 2).ID = 2 :=
  ⟨by rfl, by rfl,
    C8_id_echoed_by_the_node setupMockRPCServer () () ⟨"http://mock"⟩ 200 blockNumberMembers
      ⟨"2.0", .string "0x1234567", .nil, 2⟩ (by rfl)
      (by
        intro kv hkv
        simp only [blockNumberMembers, List.mem_cons, List.mem_singleton, List.not_mem_nil,
          or_false] at hkv
        rcases hkv with rfl | rfl | rfl
        · intro h; exact absurd h (by decide)
        · intro h; exact absurd h (by decide)
        · intro _; rfl)
      ⟨("id", .num (.int false 2)), by simp [blockNumberMembers], by decide⟩
      (by rfl)⟩

/-- C8, counterexample: a node that answers `eth_blockNumber` with id 7. The call
returns the envelope without an error, and its id is 7, not the 2 of the request. -/
theorem C8_counterexample_other_id :
    ((⟨"http://node"⟩ : BlockchainClient).GetBlockNumber
        (constantNode (.response 200 (.data (.json (.obj otherIdMembers))))) ()).result
      = .ok ⟨"2.0", .string "0x1234567", .nil, 7⟩ :=
  by rfl

/-! ## Which bodies decode -/

mutual
theorem decodeAny_ok_iff : ∀ (v : JSON), (∃ g, decodeAny v = .ok g) ↔ v.inFloat64Range = true
  | .null => by simp [decodeAny, JSON.inFloat64Range]
  | .bool b => by simp [decodeAny, JSON.inFloat64Range]
  | .str s => by simp [decodeAny, JSON.inFloat64Range]
  | .num l => by
    cases hp : parseFloat l <;> simp [decodeAny, JSON.inFloat64Range, hp]
  | .arr items => by
    have ih := decodeItems_ok_iff items
    simp only [JSON.inFloat64Range, ← ih, decodeAny]
    cases decodeItems items <;> simp
  | .obj members => by
    have ih := decodeMembers_ok_iff members []
    simp only [JSON.inFloat64Range, ← ih, decodeAny]
    cases decodeMembers members [] <;> simp
theorem decodeItems_ok_iff : ∀ (xs : List JSON),
    (∃ gs, decodeItems xs = .ok gs) ↔ inFloat64RangeItems xs = true
  | [] => by simp [decodeItems, inFloat64RangeItems]
  | x :: xs => by
    have ih₁ := decodeAny_ok_iff x
    have ih₂ := decodeItems_ok_iff xs
    simp only [inFloat64RangeItems, Bool.and_eq_true, ← ih₁, ← ih₂, decodeItems]
    cases decodeAny x <;> cases decodeItems xs <;> simp
theorem decodeMembers_ok_iff : ∀ (ms : List (String × JSON)) (acc : List (String × GoValue)),
    (∃ m, decodeMembers ms acc = .ok m) ↔ inFloat64RangeMembers ms = true
  | [], acc => by simp [decodeMembers, inFloat64RangeMembers]
  | (k, v) :: rest, acc => by
    have ih₁ := decodeAny_ok_iff v
    simp only [inFloat64RangeMembers, Bool.and_eq_true, ← ih₁, decodeMembers]
    cases hv : decodeAny v with
    | error l => simp
    | ok g =>
      have ih₂ := decodeMembers_ok_iff rest (mapSet k g acc)
      simp [ih₂]
end

theorem decodeInterface_ok_iff (struct field : String) (v : JSON) :
    (∃ g, decodeInterface struct field v = .ok g) ↔ v.inFloat64Range = true := by
  rw [← decodeAny_ok_iff]
  simp only [decodeInterface]
  cases decodeAny v <;> simp

theorem decodeString_ok_iff (struct field cur : String) (v : JSON) :
    (∃ s, decodeString struct field cur v = .ok s) ↔
      (match v with
        | .null => true
        | .str _ => true
        | _ => false) = true := by
  cases v <;> simp [decodeString]

theorem decodeInt_ok_iff (struct field : String) (cur : Int) (v : JSON) :
    (∃ i, decodeInt struct field cur v = .ok i) ↔
      (match v with
        | .null => true
        | .num l => (parseInt64 l).isSome
        | _ => false) = true := by
  cases v with
  | num l => cases hp : parseInt64 l <;> simp [decodeInt, hp]
  | _ => simp [decodeInt]

theorem setField_ok_iff (r : JSONRPCResponse) (key : String) (v : JSON) :
    (∃ r', r.setField key v = .ok r') ↔ memberFits key v = true := by
  unfold JSONRPCResponse.setField memberFits
  cases h1 : equalFold key "jsonrpc"
  · cases h2 : equalFold key "result"
    · cases h3 : equalFold key "error"
      · cases h4 : equalFold key "id"
        · simp
        · simp only [if_true, Bool.false_eq_true, if_false]
          rw [← decodeInt_ok_iff "JSONRPCResponse" "id" r.ID v]
          cases decodeInt "JSONRPCResponse" "id" r.ID v <;> simp
      · simp only [if_true, Bool.false_eq_true, if_false]
        rw [← decodeInterface_ok_iff "JSONRPCResponse" "error" v]
        cases decodeInterface "JSONRPCResponse" "error" v <;> simp
    · simp only [if_true, Bool.false_eq_true, if_false]
      rw [← decodeInterface_ok_iff "JSONRPCResponse" "result" v]
      cases decodeInterface "JSONRPCResponse" "result" v <;> simp
  · simp only [if_true]
    rw [← decodeString_ok_iff "JSONRPCResponse" "jsonrpc" r.JSONRPC v]
    cases decodeString "JSONRPCResponse" "jsonrpc" r.JSONRPC v <;> simp

theorem decodeFields_ok_iff : ∀ (ms : List (String × JSON)) (r : JSONRPCResponse),
    (∃ r', decodeFields JSONRPCResponse.setField ms r = .ok r') ↔
      ms.all (fun kv => memberFits kv.1 kv.2) = true
  | [], r => by simp [decodeFields]
  | (k, v) :: rest, r => by
    have hstep := setField_ok_iff r k v
    simp only [List.all_cons, Bool.and_eq_true, ← hstep, decodeFields]
    cases hset : r.setField k v with
    | error e => simp
    | ok r₁ =>
      have ih := decodeFields_ok_iff rest r₁
      simp [ih]

theorem setField_error_isDecodeError (r : JSONRPCResponse) (key : String) (v : JSON)
    (err : GoError) (h : r.setField key v = .error err) : err.isDecodeError = true := by
  unfold JSONRPCResponse.setField at h
  have hs : ∀ cur e, decodeString "JSONRPCResponse" "jsonrpc" cur v = .error e →
      e.isDecodeError = true := by
    intro cur e he
    cases v <;> simp [decodeString] at he <;> subst he <;> rfl
  have hi : ∀ field e, decodeInterface "JSONRPCResponse" field v = .error e →
      e.isDecodeError = true := by
    intro field e he
    simp only [decodeInterface] at he
    split at he
    · simp at he
    · simp only [Except.error.injEq] at he
      subst he
      rfl
  have hn : ∀ cur e, decodeInt "JSONRPCResponse" "id" cur v = .error e →
      e.isDecodeError = true := by
    intro cur e he
    cases v with
    | num l =>
      simp only [decodeInt] at he
      split at he
      · simp at he
      · simp only [Except.error.injEq] at he
        subst he
        rfl
    | _ => simp [decodeInt] at he <;> subst he <;> rfl
  split at h
  · split at h
    · simp at h
    · rename_i e he
      simp only [Except.error.injEq] at h
      subst h
      exact hs _ _ he
  · split at h
    · split at h
      · simp at h
      · rename_i e he
        simp only [Except.error.injEq] at h
        subst h
        exact hi _ _ he
    · split at h
      · split at h
        · simp at h
        · rename_i e he
          simp only [Except.error.injEq] at h
          subst h
          exact hi _ _ he
      · split at h
        · split at h
          · simp at h
          · rename_i e he
            simp only [Except.error.injEq] at h
            subst h
            exact hn _ _ he
        · simp at h

theorem decodeFields_error_isDecodeError : ∀ (ms : List (String × JSON))
    (r : JSONRPCResponse) (err : GoError),
    decodeFields JSONRPCResponse.setField ms r = .error err → err.isDecodeError = true
  | [], r, err, h => by simp [decodeFields] at h
  | (k, v) :: rest, r, err, h => by
    simp only [decodeFields] at h
    cases hset : r.setField k v with
    | error e =>
      simp only [hset, Except.error.injEq] at h
      subst h
      exact setField_error_isDecodeError r k v e hset
    | ok r₁ =>
      simp only [hset] at h
      exact decodeFields_error_isDecodeError rest r₁ err h

theorem jsonUnmarshal_ok_iff (body : Body) :
    (∃ env, jsonUnmarshal body = .ok env) ↔ decodable body = true := by
  cases body with
  | notJSON text scanError => simp [jsonUnmarshal, decodable]
  | json doc =>
    cases doc with
    | obj members =>
      simp only [jsonUnmarshal, unmarshalResponse, decodable]
      exact decodeFields_ok_iff members JSONRPCResponse.zero
    | _ => simp [jsonUnmarshal, unmarshalResponse, decodable]

theorem jsonUnmarshal_error_isDecodeError (body : Body) (err : GoError)
    (h : jsonUnmarshal body = .error err) : err.isDecodeError = true := by
  cases body with
  | notJSON text scanError =>
    simp only [jsonUnmarshal, Except.error.injEq] at h
    subst h
    rfl
  | json doc =>
    cases doc with
    | obj members =>
      exact decodeFields_error_isDecodeError members JSONRPCResponse.zero err h
    | null => simp [jsonUnmarshal, unmarshalResponse] at h
    | _ =>
      simp only [jsonUnmarshal, unmarshalResponse, Except.error.injEq] at h
      subst h
      rfl

/-- C10 (amended). Once the node has delivered a response, the outcome of
`sendRequest` is that of decoding the body: two responses with the same body and any
two status codes give the same outcome. The outcome is an envelope without an error
exactly when the body is JSON and is either `null` or an object whose members fit the
fields of the envelope (names under case folding: `jsonrpc` a string or null, `id` an
int64 integer or null, numbers inside `result` and `error` within binary64); for any
other body, JSON or not, it is a decode error, which the gateway reports as 500. -/
theorem C10_outcome_decided_by_body {σ τ : Type} (up : Upstream σ) (st st' : σ)
    (up₂ : Upstream τ) (t t' : τ) (bc : BlockchainClient) (request : JSONRPCRequest)
    (status status₂ : Nat) (body : Body)
    (hup : up st ⟨bc.rpcURL, "application/json", marshalRequest request⟩
      = (.response status (.data body), st'))
    (hup₂ : up₂ t ⟨bc.rpcURL, "application/json", marshalRequest request⟩
      = (.response status₂ (.data body), t')) :
    (bc.sendRequest up₂ t request).result = (bc.sendRequest up st request).result ∧
    ((∃ env, (bc.sendRequest up st request).result = .ok env) ↔ decodable body = true) ∧
    (∀ err, (bc.sendRequest up st request).result = .error err →
      err.isDecodeError = true ∧ decodable body = false) ∧
    (∀ (rpcURL : String) (q : List (String × String)),
      bc = NewBlockchainClient rpcURL → request = ⟨"2.0", "eth_blockNumber", [], 2⟩ →
      ∃ h, ServeHTTP up st rpcURL ⟨"GET", "/api/block-number", q⟩ = some h ∧
        (h.result.status = 200 ↔ decodable body = true) ∧
        (h.result.status = 500 ↔ decodable body = false)) := by
  have hres := sendRequest_result_of_body up st st' bc request status body hup
  have hres₂ := sendRequest_result_of_body up₂ t t' bc request status₂ body hup₂
  have hiff := jsonUnmarshal_ok_iff body
  refine ⟨by rw [hres, hres₂], by rw [hres]; exact hiff, ?_, ?_⟩
  · intro err herr
    rw [hres] at herr
    refine ⟨jsonUnmarshal_error_isDecodeError body err herr, ?_⟩
    cases hd : decodable body
    · rfl
    · obtain ⟨env, henv⟩ := hiff.2 hd
      rw [henv] at herr
      cases herr
  · intro rpcURL q hbc hreq
    subst hbc hreq
    refine ⟨_, serve_blockNumber up st rpcURL q, ?_⟩
    have hcall : ((NewBlockchainClient rpcURL).GetBlockNumber up st).result
        = jsonUnmarshal body := hres
    cases hj : jsonUnmarshal body with
    | ok env =>
      have hd : decodable body = true := hiff.1 ⟨env, hj⟩
      rw [handleBlockNumber_ok up st _ env (by rw [hcall, hj])]
      simp [hd]
    | error err =>
      have hd : decodable body = false := by
        cases hd : decodable body
        · rfl
        · obtain ⟨env, henv⟩ := hiff.2 hd
          rw [henv] at hj
          cases hj
      rw [handleBlockNumber_error up st _ err (by rw [hcall, hj])]
      simp [hd]

/-- C10, witness: the plain-text body of an `http.Error` answer, once with status 400
and once with status 200: the same decode error both times. -/
theorem C10_witness_plain_text_body :
    ((NewBlockchainClient "http://node").sendRequest
        (constantNode (.response 200 (.data (.notJSON "Invalid block number\n"
          "invalid character 'I' looking for beginning of value")))) ()
        ⟨"2.0", "eth_getBlockByNumber", [.string "", .bool true], 2⟩).result
      = ((NewBlockchainClient "http://node").sendRequest
        (constantNode (.response 400 (.data (.notJSON "Invalid block number\n"
          "invalid character 'I' looking for beginning of value")))) ()
        ⟨"2.0", "eth_getBlockByNumber", [.string "", .bool true], 2⟩).result ∧
    decodable (.notJSON "Invalid block number\n"
      "invalid character 'I' looking for beginning of value") = false :=
  ⟨(C10_outcome_decided_by_body
      (constantNode (.response 400 (.data (.notJSON "Invalid block number\n"
        "invalid character 'I' looking for beginning of value")))) () ()
      (constantNode (.response 200 (.data (.notJSON "Invalid block number\n"
        "invalid character 'I' looking for beginning of value")))) () ()
      (NewBlockchainClient "http://node")
      ⟨"2.0", "eth_getBlockByNumber", [.string "", .bool true], 2⟩
      400 200 _ (by rfl) (by rfl)).1, by rfl⟩

/-- C10, counterexample: a response with status 500 and the body `null`. The body is
valid JSON that is not of the envelope shape, and `sendRequest` returns an envelope
(the zero value) without an error; the gateway answers 200. -/
theorem C10_counterexample_null_body :
    envelopeShape .null = false ∧
    ((NewBlockchainClient "http://node").sendRequest
        (constantNode (.response 500 (.data (.json .null)))) ()
        ⟨"2.0", "eth_blockNumber", [], 2⟩).result = .ok ⟨"", .nil, .nil, 0⟩ ∧
    (ServeHTTP (constantNode (.response 500 (.data (.json .null)))) () "http://node"
        ⟨"GET", "/api/block-number", []⟩).map (fun h => h.result)
      = some ⟨200, .obj [("jsonrpc", .str ""), ("id", .num (.int false 0))]⟩ :=
  ⟨by rfl, by rfl, by rfl⟩

/-- C1, witness: the two requests of the test against the mock node. -/
theorem C1_witness_test_requests :
    ("0x1234567" ≠ "" ∧ '/' ∉ "0x1234567".data) ∧
    (∃ h, ServeHTTP setupMockRPCServer () "http://mock" ⟨"GET", "/api/block-number", []⟩
        = some h ∧
      (h.result.status = 500 ↔
        ∃ err, ((NewBlockchainClient "http://mock").GetBlockNumber
          setupMockRPCServer ()).result = .error err)) ∧
    (∃ h, ServeHTTP setupMockRPCServer () "http://mock" ⟨"GET", "/api/block/0x1234567", []⟩
        = some h ∧
      (h.result.status = 500 ↔
        ∃ err, ((NewBlockchainClient "http://mock").GetBlockByNumber
          setupMockRPCServer () "0x1234567" true).result = .error err)) := by
  obtain ⟨⟨h₁, hs₁, _, hi₁, _⟩, ⟨h₂, hs₂, _, hi₂, _⟩⟩ :=
    C1_handler_maps_client_outcome setupMockRPCServer () "http://mock" [] "0x1234567"
      (by decide) (by decide)
  exact ⟨⟨by decide, by decide⟩, ⟨h₁, hs₁, hi₁⟩, ⟨h₂, hs₂, hi₂⟩⟩

/-- C3, witness: `GET /api/block/0x1234567?full=TRUE` posts the flag `false`. -/
theorem C3_witness_upper_case_value :
    ("0x1234567" ≠ "" ∧ '/' ∉ "0x1234567".data) ∧
    ∃ (h : Sent Unit HTTPResponse) (doc : JSON),
      ServeHTTP setupMockRPCServer () "http://mock"
        ⟨"GET", "/api/block/0x1234567", [("full", "TRUE")]⟩ = some h ∧
      h.posts = [⟨"http://mock", "application/json", doc⟩] ∧
      doc.member "params" = some (.arr [.str "0x1234567", .bool false]) := by
  obtain ⟨h, fullTx, hs, hiff, _, _, doc, hposts, hparams⟩ :=
    C3_full_flag setupMockRPCServer () "http://mock" [("full", "TRUE")] "0x1234567"
      (by decide) (by decide)
  have hf : fullTx = false := by
    cases fullTx
    · rfl
    · have := hiff.1 rfl
      simp [List.lookup] at this
  subst hf
  exact ⟨⟨by decide, by decide⟩, h, doc, hs, hposts, hparams⟩

/-! ## Envelopes relayed by the gateway -/

theorem decodeMembers_lookup : ∀ (ms : List (String × JSON)) (acc : List (String × GoValue)),
    (ms.map Prod.fst).Nodup → inFloat64RangeMembers ms = true →
    ∃ m, decodeMembers ms acc = .ok m ∧
      ∀ k, match ms.lookup k with
        | some v => ∃ g, decodeAny v = .ok g ∧ m.lookup k = some g
        | none => m.lookup k = acc.lookup k
  | [], acc, _, _ => ⟨acc, rfl, fun _ => rfl⟩
  | (x, v) :: rest, acc, hnd, h => by
    simp only [inFloat64RangeMembers, Bool.and_eq_true] at h
    simp only [List.map_cons, List.nodup_cons] at hnd
    obtain ⟨g, hg⟩ := (decodeAny_ok_iff v).2 h.1
    obtain ⟨m, hm, hspec⟩ := decodeMembers_lookup rest (mapSet x g acc) hnd.2 h.2
    refine ⟨m, by simp [decodeMembers, hg, hm], ?_⟩
    intro k
    have hk := hspec k
    by_cases hkx : k = x
    · subst hkx
      have hnone : rest.lookup k = none := lookup_eq_none_of_not_mem k rest hnd.1
      simp only [hnone, lookup_mapSet, if_true] at hk
      simp only [lookup_cons_eq, if_true]
      exact ⟨g, hg, hk⟩
    · simp only [lookup_cons_eq, if_neg hkx]
      cases hr : rest.lookup k with
      | some w => simpa [hr] using hk
      | none => simpa [hr, lookup_mapSet, hkx] using hk

/-- The members of an envelope decode, field by field, when the numbers of `result`
and `error` are within the range of binary64. -/
theorem unmarshal_envelope (members : List (String × JSON))
    (henv : envelopeMembers members = true)
    (hres : ∀ v, members.lookup "result" = some v → v.inFloat64Range = true)
    (herr : ∀ v, members.lookup "error" = some v → v.inFloat64Range = true) :
    ∃ env, unmarshalResponse (.obj members) = .ok env ∧
      members.lookup "jsonrpc" = some (.str env.JSONRPC) ∧
      (∃ l, members.lookup "id" = some (.num l) ∧ parseInt64 l = some env.ID) ∧
      (match members.lookup "result" with
        | some v => decodeAny v = .ok env.Result
        | none => env.Result = .nil) ∧
      (match members.lookup "error" with
        | some v => decodeAny v = .ok env.Error
        | none => env.Error = .nil) := by
  simp only [envelopeMembers, Bool.and_eq_true, decide_eq_true_eq, List.all_eq_true] at henv
  obtain ⟨⟨⟨hnd, hall⟩, hj⟩, hid⟩ := henv
  have hj' : ∀ v, members.lookup "jsonrpc" = some v → ∃ s, v = .str s := by
    intro v hv
    rw [hv] at hj
    cases v <;> simp_all
  have hid' : ∀ v, members.lookup "id" = some v → ∃ l i, v = .num l ∧ parseInt64 l = some i := by
    intro v hv
    rw [hv] at hid
    cases v with
    | num l =>
      cases hp : parseInt64 l with
      | none => simp [hp] at hid
      | some i => exact ⟨l, i, rfl, hp⟩
    | _ => simp at hid
  obtain ⟨env, hdec, h1, h2, h3, h4⟩ := decodeFields_wellFormed members JSONRPCResponse.zero hnd
    (fun kv h => by simpa using hall kv h) hj' hid'
    (fun v hv => (decodeAny_ok_iff v).2 (hres v hv))
    (fun v hv => (decodeAny_ok_iff v).2 (herr v hv))
  refine ⟨env, hdec, ?_, ?_, ?_, ?_⟩
  · cases hl : members.lookup "jsonrpc" with
    | none => simp [hl] at hj
    | some v => simp only [hl] at h1; rw [h1]
  · cases hl : members.lookup "id" with
    | none => simp [hl] at hid
    | some v =>
      simp only [hl] at h2
      obtain ⟨l, rfl, hp⟩ := h2
      exact ⟨l, rfl, hp⟩
  · cases hl : members.lookup "result" with
    | none => simpa [hl, JSONRPCResponse.zero] using h3
    | some v => simpa [hl] using h3
  · cases hl : members.lookup "error" with
    | none => simpa [hl, JSONRPCResponse.zero] using h4
    | some v => simpa [hl] using h4

theorem inFloat64Range_of_roundTripSafe (v : JSON) (h : v.roundTripSafe = true) :
    v.inFloat64Range = true := by
  obtain ⟨g, hg, _⟩ := decodeAny_same v h
  exact (decodeAny_ok_iff v).1 ⟨g, hg⟩

/-- Both API routes answer 200 with the encoding of the envelope their client call
returned. -/
theorem serve_relays_envelope {σ : Type} (up : Upstream σ) (st : σ) (bc : BlockchainClient)
    (request : JSONRPCRequest) (env : JSONRPCResponse)
    (hok : (bc.sendRequest up st request).result = .ok env) :
    (∀ (rpcURL : String) (q : List (String × String)),
      bc = NewBlockchainClient rpcURL → request = ⟨"2.0", "eth_blockNumber", [], 2⟩ →
      ∃ h, ServeHTTP up st rpcURL ⟨"GET", "/api/block-number", q⟩ = some h ∧
        h.result = ⟨200, marshalResponse env⟩) ∧
    (∀ (rpcURL : String) (q : List (String × String)) (number : String),
      number ≠ "" → '/' ∉ number.data → bc = NewBlockchainClient rpcURL →
      request = ⟨"2.0", "eth_getBlockByNumber",
        [.string number, .bool (decide (DefaultQuery q "full" "true" = "true"))], 2⟩ →
      ∃ h, ServeHTTP up st rpcURL ⟨"GET", "/api/block/" ++ number, q⟩ = some h ∧
        h.result = ⟨200, marshalResponse env⟩) := by
  constructor
  · intro rpcURL q hbc hreq
    subst hbc hreq
    exact ⟨_, serve_blockNumber up st rpcURL q, handleBlockNumber_ok up st _ env hok⟩
  · intro rpcURL q number hne hseg hbc hreq
    subst hbc hreq
    exact ⟨_, serve_block up st rpcURL number q hne hseg,
      handleBlock_ok up st _ number q env hok⟩

/-- C2 (amended). When the node answers the POST, with whatever status code, an
envelope (member names among `jsonrpc`, `result`, `error`, `id`, none repeated; a
string `jsonrpc`; an int64 `id`; the numbers of a `result` member, if there is one,
within the range of binary64) that carries an error object which repeats no member
name at any depth and whose numbers all come back as the same number from binary64,
`sendRequest` returns the decoded envelope without an error, and both API routes
answer 200 with the encoding of that envelope, whose `error` member is the node's
error object as a JSON value. -/
theorem C2_rpc_error_is_forwarded {σ : Type} (up : Upstream σ) (st st' : σ)
    (bc : BlockchainClient) (request : JSONRPCRequest) (status : Nat)
    (members errorObject : List (String × JSON))
    (henv : envelopeMembers members = true)
    (hresult : ∀ v, members.lookup "result" = some v → v.inFloat64Range = true)
    (herr : members.lookup "error" = some (.obj errorObject))
    (hsafe : (JSON.obj errorObject).roundTripSafe = true)
    (hup : up st ⟨bc.rpcURL, "application/json", marshalRequest request⟩
      = (.response status (.data (.json (.obj members))), st')) :
    ∃ env e,
      (bc.sendRequest up st request).result = .ok env ∧
      unmarshalResponse (.obj members) = .ok env ∧
      (marshalResponse env).member "error" = some e ∧
      JSON.Same e (.obj errorObject) ∧
      (∀ (rpcURL : String) (q : List (String × String)),
        bc = NewBlockchainClient rpcURL → request = ⟨"2.0", "eth_blockNumber", [], 2⟩ →
        ∃ h, ServeHTTP up st rpcURL ⟨"GET", "/api/block-number", q⟩ = some h ∧
          h.result = ⟨200, marshalResponse env⟩) ∧
      (∀ (rpcURL : String) (q : List (String × String)) (number : String),
        number ≠ "" → '/' ∉ number.data → bc = NewBlockchainClient rpcURL →
        request = ⟨"2.0", "eth_getBlockByNumber",
          [.string number, .bool (decide (DefaultQuery q "full" "true" = "true"))], 2⟩ →
        ∃ h, ServeHTTP up st rpcURL ⟨"GET", "/api/block/" ++ number, q⟩ = some h ∧
          h.result = ⟨200, marshalResponse env⟩) := by
  obtain ⟨env, henvelope, _, _, _, h4⟩ := unmarshal_envelope members henv hresult
    (fun v hv => by
      rw [herr] at hv
      cases hv
      exact inFloat64Range_of_roundTripSafe _ hsafe)
  simp only [herr] at h4
  obtain ⟨g, hg, hsame⟩ := decodeAny_same (.obj errorObject) hsafe
  rw [hg] at h4
  simp only [Except.ok.injEq] at h4
  subst h4
  have hcall : (bc.sendRequest up st request).result = .ok env := by
    rw [sendRequest_result_of_body up st st' bc request status _ hup]
    exact henvelope
  have hne : env.Error ≠ .nil := by
    intro hnil
    rw [hnil] at hg
    have := decodeAny_deterministic_nil _ hg
    cases this
  have hrelay := serve_relays_envelope up st bc request env hcall
  refine ⟨env, encodeAny env.Error, hcall, henvelope, ?_, hsame, hrelay.1, hrelay.2⟩
  rw [member_marshalResponse_error]
  cases hE : env.Error <;> simp_all

/-- C2, witness: the envelope the test's mock node writes for an unknown method,
answered to the request of `GET /api/block-number`. -/
theorem C2_witness_method_not_found :
    envelopeMembers methodNotFoundMembers = true ∧
    (JSON.obj [("code", .num (.int true 32601)),
      ("message", .str "Method not found")]).roundTripSafe = true ∧
    ∃ h e,
      ServeHTTP (constantNode (.response 200 (.data (.json (.obj methodNotFoundMembers))))) ()
        "http://node" ⟨"GET", "/api/block-number", []⟩ = some h ∧
      h.result.status = 200 ∧
      h.result.body.member "error" = some e ∧
      JSON.Same e (.obj [("code", .num (.int true 32601)),
        ("message", .str "Method not found")]) := by
  refine ⟨by rfl, by rfl, ?_⟩
  obtain ⟨env, e, _, _, he, hsame, hroute, _⟩ :=
    C2_rpc_error_is_forwarded
      (constantNode (.response 200 (.data (.json (.obj methodNotFoundMembers))))) () ()
      (NewBlockchainClient "http://node") ⟨"2.0", "eth_blockNumber", [], 2⟩ 200
      methodNotFoundMembers
      [("code", .num (.int true 32601)), ("message", .str "Method not found")]
      (by rfl) (by intro v hv; cases hv) (by rfl) (by rfl) (by rfl)
  obtain ⟨h, hs, hres⟩ := hroute "http://node" [] rfl rfl
  exact ⟨h, e, hs, by rw [hres], by rw [hres]; exact he, hsame⟩

/-- C7 (amended). When the node answers the POST, with whatever status code, a
well-formed envelope (member names among `jsonrpc`, `result`, `error`, `id`, none
repeated; a string `jsonrpc`; an int64 `id`; `result` and `error` without a repeated
member name at any depth and with numbers that all come back as the same number from
binary64), both API routes answer 200 with the re-encoding of the decoded envelope.
That body has the `jsonrpc` member and the `id` member of the node's body, and for
`result` and for `error` the member of the node's body as a JSON value, except that a
member whose value is `null` is left out (as is one the node's body does not have). -/
theorem C7_envelope_relayed_without_null_members {σ : Type} (up : Upstream σ) (st st' : σ)
    (bc : BlockchainClient) (request : JSONRPCRequest) (status : Nat)
    (members : List (String × JSON))
    (hwf : wellFormedEnvelope members = true)
    (hup : up st ⟨bc.rpcURL, "application/json", marshalRequest request⟩
      = (.response status (.data (.json (.obj members))), st')) :
    ∃ env,
      (bc.sendRequest up st request).result = .ok env ∧
      unmarshalResponse (.obj members) = .ok env ∧
      (marshalResponse env).member "jsonrpc" = members.lookup "jsonrpc" ∧
      (∃ i u, (marshalResponse env).member "id" = some i ∧ members.lookup "id" = some u ∧
        JSON.Same i u) ∧
      (∀ name, name = "result" ∨ name = "error" →
        (members.lookup name = none ∨ members.lookup name = some .null →
          (marshalResponse env).member name = none) ∧
        (∀ v, members.lookup name = some v → v ≠ .null →
          ∃ w, (marshalResponse env).member name = some w ∧ JSON.Same w v)) ∧
      (∀ (rpcURL : String) (q : List (String × String)),
        bc = NewBlockchainClient rpcURL → request = ⟨"2.0", "eth_blockNumber", [], 2⟩ →
        ∃ h, ServeHTTP up st rpcURL ⟨"GET", "/api/block-number", q⟩ = some h ∧
          h.result = ⟨200, marshalResponse env⟩) ∧
      (∀ (rpcURL : String) (q : List (String × String)) (number : String),
        number ≠ "" → '/' ∉ number.data → bc = NewBlockchainClient rpcURL →
        request = ⟨"2.0", "eth_getBlockByNumber",
          [.string number, .bool (decide (DefaultQuery q "full" "true" = "true"))], 2⟩ →
        ∃ h, ServeHTTP up st rpcURL ⟨"GET", "/api/block/" ++ number, q⟩ = some h ∧
          h.result = ⟨200, marshalResponse env⟩) := by
  obtain ⟨env, henv, h1, ⟨l, hl, hp⟩, h3, h4⟩ := unmarshal_wellFormed members hwf
  have hcall : (bc.sendRequest up st request).result = .ok env := by
    rw [sendRequest_result_of_body up st st' bc request status _ hup]
    exact henv
  have hrelay := serve_relays_envelope up st bc request env hcall
  refine ⟨env, hcall, henv, ?_, ?_, ?_, hrelay.1, hrelay.2⟩
  · rw [h1]
    exact member_marshalResponse_jsonrpc env
  · exact ⟨_, _, member_marshalResponse_id env, hl,
      JSON.Same.num (sameValue_ofInt l env.ID hp)⟩
  · intro name hname
    rcases hname with rfl | rfl
    · simp only [member_marshalResponse_result]
      constructor
      · rintro (hn | hn)
        · simp only [hn] at h3
          simp [h3]
        · simp only [hn] at h3
          have : env.Result = .nil := by
            have := h3.1
            simp only [decodeAny, Except.ok.injEq] at this
            exact this.symm
          simp [this]
      · intro v hv hvn
        simp only [hv] at h3
        have hne : env.Result ≠ .nil := by
          intro hnil
          rw [hnil] at h3
          exact hvn (decodeAny_deterministic_nil _ h3.1)
        refine ⟨encodeAny env.Result, ?_, h3.2⟩
        cases hR : env.Result <;> simp_all
    · simp only [member_marshalResponse_error]
      constructor
      · rintro (hn | hn)
        · simp only [hn] at h4
          simp [h4]
        · simp only [hn] at h4
          have : env.Error = .nil := by
            have := h4.1
            simp only [decodeAny, Except.ok.injEq] at this
            exact this.symm
          simp [this]
      · intro v hv hvn
        simp only [hv] at h4
        have hne : env.Error ≠ .nil := by
          intro hnil
          rw [hnil] at h4
          exact hvn (decodeAny_deterministic_nil _ h4.1)
        refine ⟨encodeAny env.Error, ?_, h4.2⟩
        cases hE : env.Error <;> simp_all

/-- C7, witness: the envelope of the test, with result `0x1234567`. -/
theorem C7_witness_block_number :
    wellFormedEnvelope blockNumberMembers = true ∧
    ∃ h w,
      ServeHTTP (constantNode (.response 200 (.data (.json (.obj blockNumberMembers))))) ()
        "http://node" ⟨"GET", "/api/block-number", []⟩ = some h ∧
      h.result.status = 200 ∧
      h.result.body.member "jsonrpc" = some (.str "2.0") ∧
      h.result.body.member "result" = some w ∧ JSON.Same w (.str "0x1234567") := by
  refine ⟨by rfl, ?_⟩
  obtain ⟨env, _, _, hj, _, hm, hroute, _⟩ :=
    C7_envelope_relayed_without_null_members
      (constantNode (.response 200 (.data (.json (.obj blockNumberMembers))))) () ()
      (NewBlockchainClient "http://node") ⟨"2.0", "eth_blockNumber", [], 2⟩ 200
      blockNumberMembers (by rfl) (by rfl)
  obtain ⟨h, hs, hres⟩ := hroute "http://node" [] rfl rfl
  obtain ⟨w, hw, hsame⟩ := (hm "result" (Or.inl rfl)).2 (.str "0x1234567") (by rfl)
    (by intro h; cases h)
  exact ⟨h, w, hs, by rw [hres], by rw [hres]; exact hj, by rw [hres]; exact hw, hsame⟩

theorem firstParam_getBlockByNumber (s : String) (full : Bool) :
    firstParam (marshalRequest ⟨"2.0", "eth_getBlockByNumber", [.string s, .bool full], 2⟩)
      = some (.str s) := by
  rw [marshalRequest_getBlockByNumber]
  simp [firstParam, JSON.member, lookup_cons_eq]

/-- C6 (amended). For every non-empty `s` without a slash (a `String`, so a segment
of valid UTF-8 text): when the node answers the
`eth_getBlockByNumber` request of `GET /api/block/<s>` (no query string), with
whatever status code, an envelope (member names among `jsonrpc`, `result`, `error`,
`id`, none repeated; a string `jsonrpc`; an int64 `id`; the numbers of an `error`
member, if there is one, within the range of binary64) whose result is an object that
repeats no member name, has its numbers within the range of binary64 and has the
first param of the request as its `number` member, the gateway answers 200 with an
envelope whose result is an object with the `number` member `s`. -/
theorem C6_path_parameter_round_trip {σ : Type} (up : Upstream σ) (st st' : σ)
    (rpcURL : String) (s : String) (status : Nat)
    (members resultObject : List (String × JSON))
    (hne : s ≠ "") (hseg : '/' ∉ s.data)
    (hup : up st ⟨(NewBlockchainClient rpcURL).rpcURL, "application/json",
        marshalRequest ⟨"2.0", "eth_getBlockByNumber", [.string s, .bool true], 2⟩⟩
      = (.response status (.data (.json (.obj members))), st'))
    (henv : envelopeMembers members = true)
    (herror : ∀ v, members.lookup "error" = some v → v.inFloat64Range = true)
    (hresult : members.lookup "result" = some (.obj resultObject))
    (hnames : (resultObject.map Prod.fst).Nodup)
    (hrange : (JSON.obj resultObject).inFloat64Range = true)
    (hnumber : resultObject.lookup "number"
      = firstParam (marshalRequest
          ⟨"2.0", "eth_getBlockByNumber", [.string s, .bool true], 2⟩)) :
    ∃ h result,
      ServeHTTP up st rpcURL ⟨"GET", "/api/block/" ++ s, []⟩ = some h ∧
      h.result.status = 200 ∧
      h.result.body.member "result" = some result ∧
      result.member "number" = some (.str s) := by
  obtain ⟨env, henvelope, _, _, h3, _⟩ := unmarshal_envelope members henv
    (fun v hv => by
      rw [hresult] at hv
      cases hv
      exact hrange)
    herror
  simp only [hresult] at h3
  simp only [JSON.inFloat64Range] at hrange
  obtain ⟨m, hm, hlook⟩ := decodeMembers_lookup resultObject [] hnames hrange
  have hmap : env.Result = .map m := by
    simp only [decodeAny, hm, Except.ok.injEq] at h3
    exact h3.symm
  have hnum : m.lookup "number" = some (.string s) := by
    have := hlook "number"
    rw [hnumber, firstParam_getBlockByNumber] at this
    obtain ⟨g, hg, hgm⟩ := this
    simp only [decodeAny, Except.ok.injEq] at hg
    rw [hgm, ← hg]
  have hq : decide (DefaultQuery [] "full" "true" = "true") = true := by decide
  have hcall : ((NewBlockchainClient rpcURL).sendRequest up st
      ⟨"2.0", "eth_getBlockByNumber",
        [.string s, .bool (decide (DefaultQuery [] "full" "true" = "true"))], 2⟩).result
      = .ok env := by
    rw [hq, sendRequest_result_of_body up st st' _ _ status _ hup]
    exact henvelope
  obtain ⟨h, hs, hres⟩ := (serve_relays_envelope up st _ _ env hcall).2 rpcURL [] s hne hseg
    rfl rfl
  refine ⟨h, .obj (encodeEntries m), hs, by rw [hres], ?_, ?_⟩
  · rw [hres]
    simp only [member_marshalResponse_result, hmap, encodeAny]
  · simp only [JSON.member, lookup_encodeEntries, hnum, Option.map_some', encodeAny]

/-- C6, witness: the request of the test, `GET /api/block/0x1234567`, against the
test's mock node. -/
theorem C6_witness_test_request :
    ("0x1234567" ≠ "" ∧ '/' ∉ "0x1234567".data) ∧
    (setupMockRPCServer : Upstream Unit) () ⟨"http://mock", "application/json",
        marshalRequest ⟨"2.0", "eth_getBlockByNumber", [.string "0x1234567", .bool true], 2⟩⟩
      = (.response 200 (.data (.json (.obj mockBlockMembers))), ()) ∧
    envelopeMembers mockBlockMembers = true ∧
    ∃ h result,
      ServeHTTP setupMockRPCServer () "http://mock" ⟨"GET", "/api/block/0x1234567", []⟩
        = some h ∧
      h.result.status = 200 ∧
      h.result.body.member "result" = some result ∧
      result.member "number" = some (.str "0x1234567") :=
  ⟨⟨by decide, by decide⟩, by rfl, by rfl,
    C6_path_parameter_round_trip setupMockRPCServer () () "http://mock" "0x1234567" 200
      mockBlockMembers
      [("hash", .str "0xabc123..."), ("nonce", .str "0x1234"), ("number", .str "0x1234567"),
        ("parentHash", .str "0xdef456..."), ("timestamp", .str "0x6789"),
        ("transactions", .arr []), ("transactionsRoot", .str "0xghi789...")]
      (by decide) (by decide) (by rfl) (by rfl) (by intro v hv; cases hv) (by rfl)
      (by decide) (by rfl) (by rfl)⟩

/-- C6, counterexample: a node that answers `eth_getBlockByNumber` with a result
object whose `number` member is the first param of the request, and writes the id as
the string `"2"`. The `ID` field is an `int`, the body does not decode, and
`GET /api/block/0x1234567` is answered 500. -/
theorem C6_counterexample_string_id :
    (echoNodeStringId () ⟨"http://node", "application/json",
        marshalRequest ⟨"2.0", "eth_getBlockByNumber", [.string "0x1234567", .bool true], 2⟩⟩).1
      = .response 200 (.data (.json (.obj [("jsonrpc", .str "2.0"),
          ("result", .obj [("number", .str "0x1234567")]), ("id", .str "2")]))) ∧
    (ServeHTTP echoNodeStringId () "http://node" ⟨"GET", "/api/block/0x1234567", []⟩).map
        (fun h => h.result)
      = some ⟨500, .obj [("error", .str
          "json: cannot unmarshal string into Go struct field JSONRPCResponse.id of type int")]⟩ :=
  ⟨by rfl, by rfl⟩
